import Mathlib

/-!
Verification of the qubes-anaconda-addon repository (Qubes OS initial-setup
installer add-on).  The Python sources are shallowly embedded: Python strings
become `List Char`, fallible code returns `Except`, and every interaction with
the outside world (processes, files) is passed in as an explicit environment
argument.  Each embedded definition names the source function it was
translated from.
-/

/-- Python strings are modelled as lists of characters. -/
abbrev PStr := List Char

/-- The ASCII whitespace characters recognised by Python's `str.strip()` and
`str.split()` (with no separator argument). -/
def pyIsSpace (c : Char) : Bool :=
  c = ' ' || c = '\t' || c = '\n' || c = '\x0b' || c = '\x0c' || c = '\r'

/-- Python `str.strip()`: remove leading and trailing whitespace. -/
def pyStrip (l : PStr) : PStr :=
  ((l.dropWhile pyIsSpace).reverse.dropWhile pyIsSpace).reverse

/-- Python `line.split(maxsplit=1)`: split on runs of whitespace, at most one
split; the result has zero, one or two elements, and never contains an empty
token (a trailing whitespace run is dropped). -/
def pySplitMax1 (l : PStr) : List PStr :=
  let l1 := l.dropWhile pyIsSpace
  if l1 = [] then []
  else
    let tok := l1.takeWhile (fun c => !pyIsSpace c)
    let rest := (l1.dropWhile (fun c => !pyIsSpace c)).dropWhile pyIsSpace
    if rest = [] then [tok] else [tok, rest]

/-- Python `value.split(sep)` for a one-character separator `sep` (no maxsplit):
always returns at least one (possibly empty) part. -/
def splitOnChar (sep : Char) : PStr → List PStr
  | [] => [[]]
  | c :: rest =>
    match splitOnChar sep rest with
    | [] => [[]]
    | t :: ts => if c = sep then [] :: t :: ts else (c :: t) :: ts

/-- Python `" ".join(parts)` specialised to a one-character separator. -/
def joinChar (sep : Char) : List PStr → PStr
  | [] => []
  | [e] => e
  | e :: rest => e ++ sep :: joinChar sep rest

/-- Python `str.lower()` (ASCII). -/
def pyLower (l : PStr) : PStr := l.map Char.toLower

/-- Python `str(b)` for a `bool`-or-`None` attribute value:
`"True"`, `"False"` or `"None"`. -/
def pyOptBoolStr : Option Bool → PStr
  | some true => "True".data
  | some false => "False".data
  | none => "None".data

-- ---------------------------------------------------------------------------
-- Generic list lemmas about the Python string primitives
-- ---------------------------------------------------------------------------

theorem head?_dropWhile_false {p : α → Bool} {l : List α} {c : α}
    (h : (l.dropWhile p).head? = some c) : p c = false := by
  induction l with
  | nil => simp [List.dropWhile] at h
  | cons a t ih =>
    by_cases hp : p a
    · rw [List.dropWhile_cons_of_pos hp] at h
      exact ih h
    · rw [List.dropWhile_cons_of_neg hp] at h
      simp at h
      subst h
      simpa using hp

theorem dropWhile_idem {p : α → Bool} (l : List α) :
    (l.dropWhile p).dropWhile p = l.dropWhile p := by
  cases h : l.dropWhile p with
  | nil => simp
  | cons c t =>
    have hc : p c = false := head?_dropWhile_false (by rw [h]; rfl)
    rw [List.dropWhile_cons_of_neg (by simp [hc])]

theorem dropWhile_eq_nil_all {p : α → Bool} {l : List α}
    (h : l.dropWhile p = []) : ∀ c ∈ l, p c = true := by
  induction l with
  | nil => intro c hc; simp at hc
  | cons a t ih =>
    by_cases hp : p a
    · rw [List.dropWhile_cons_of_pos hp] at h
      intro c hc
      rcases List.mem_cons.1 hc with hc | hc
      · subst hc; simpa using hp
      · exact ih h c hc
    · rw [List.dropWhile_cons_of_neg hp] at h
      simp at h

theorem mem_takeWhile_sat {p : α → Bool} {l : List α} {c : α}
    (h : c ∈ l.takeWhile p) : p c = true := by
  induction l with
  | nil => simp [List.takeWhile] at h
  | cons a t ih =>
    by_cases hp : p a
    · rw [List.takeWhile_cons_of_pos hp] at h
      rcases List.mem_cons.1 h with hc | hc
      · subst hc; simpa using hp
      · exact ih hc
    · rw [List.takeWhile_cons_of_neg hp] at h
      simp at h

/-- `pyStrip` leaves a list whose leading character is not whitespace. -/
theorem pyStrip_head_not_space {l : PStr} {c : Char}
    (h : (pyStrip l).head? = some c) : pyIsSpace c = false := by
  unfold pyStrip at h
  set m := l.dropWhile pyIsSpace with hm
  have hsfx : ((m.reverse.dropWhile pyIsSpace).reverse).head? = some c := h
  -- the stripped list is a prefix of m; a nonempty prefix has m's head
  have hpre : ∃ t, (m.reverse.dropWhile pyIsSpace).reverse ++ t = m := by
    obtain ⟨t, ht⟩ := List.dropWhile_suffix (l := m.reverse) (p := pyIsSpace)
    refine ⟨t.reverse, ?_⟩
    have := congrArg List.reverse ht
    simpa [List.reverse_append] using this
  obtain ⟨t, ht⟩ := hpre
  have hmhead : m.head? = some c := by
    cases hs : (m.reverse.dropWhile pyIsSpace).reverse with
    | nil => rw [hs] at hsfx; simp at hsfx
    | cons x xs =>
      rw [hs] at hsfx
      simp at hsfx
      rw [← ht, hs]
      simp [hsfx]
  exact head?_dropWhile_false (hm ▸ hmhead)

/-- `pyStrip` leaves a list whose trailing character is not whitespace. -/
theorem pyStrip_reverse_head_not_space {l : PStr} {c : Char}
    (h : (pyStrip l).reverse.head? = some c) : pyIsSpace c = false := by
  unfold pyStrip at h
  rw [List.reverse_reverse] at h
  exact head?_dropWhile_false h

/-- Left-strippedness: `pyStrip` is a fixed point of leading-whitespace
removal. -/
theorem pyStrip_dropWhile (l : PStr) :
    (pyStrip l).dropWhile pyIsSpace = pyStrip l := by
  cases h : pyStrip l with
  | nil => simp
  | cons c t =>
    have : pyIsSpace c = false := pyStrip_head_not_space (by rw [h]; rfl)
    rw [List.dropWhile_cons_of_neg (by simp [this])]

/-- Right-strippedness, phrased on the reverse. -/
theorem pyStrip_reverse_dropWhile (l : PStr) :
    (pyStrip l).reverse.dropWhile pyIsSpace = (pyStrip l).reverse := by
  cases h : (pyStrip l).reverse with
  | nil => simp
  | cons c t =>
    have : pyIsSpace c = false := pyStrip_reverse_head_not_space (by rw [h]; rfl)
    rw [List.dropWhile_cons_of_neg (by simp [this])]

/-- If splitting a stripped line with `maxsplit=1` produces fewer than two
tokens, the stripped line contains no whitespace character at all (in
particular no space).  This is the fact that makes the `invalid line` branch
of `QubesData.handle_line` dead code. -/
theorem pySplitMax1_short_no_space (l : PStr) :
    (pySplitMax1 (pyStrip l)).length ≤ 1 →
    ∀ c ∈ pyStrip l, pyIsSpace c = false := by
  intro hlen c hc
  unfold pySplitMax1 at hlen
  rw [pyStrip_dropWhile] at hlen
  by_cases hnil : pyStrip l = []
  · rw [hnil] at hc; simp at hc
  · rw [if_neg hnil] at hlen
    set tok := (pyStrip l).takeWhile (fun c => !pyIsSpace c) with htok
    set sfx := (pyStrip l).dropWhile (fun c => !pyIsSpace c) with hsfx
    have hrest : sfx.dropWhile pyIsSpace = [] := by
      by_contra hne
      rw [if_neg hne] at hlen
      simp at hlen
    -- every character of sfx is whitespace
    have hsfxws : ∀ c ∈ sfx, pyIsSpace c = true := dropWhile_eq_nil_all hrest
    -- sfx must be empty, else the stripped line would end in whitespace
    have hsfxnil : sfx = [] := by
      cases hs : sfx with
      | nil => rfl
      | cons x xs =>
        exfalso
        have hdecomp : pyStrip l = tok ++ sfx := by
          rw [htok, hsfx, List.takeWhile_append_dropWhile]
        have hrev : (pyStrip l).reverse = sfx.reverse ++ tok.reverse := by
          rw [hdecomp, List.reverse_append]
        cases hx : sfx.reverse with
        | nil =>
          rw [hs] at hx
          simp at hx
        | cons y ys =>
          have hlast : (pyStrip l).reverse.head? = some y := by
            rw [hrev, hx]
            rfl
          have hymem : y ∈ sfx := by
            have : y ∈ sfx.reverse := by rw [hx]; exact List.mem_cons_self y ys
            exact List.mem_reverse.1 this
          have hws : pyIsSpace y = true := hsfxws y hymem
          have hnws := pyStrip_reverse_head_not_space hlast
          rw [hws] at hnws
          exact absurd hnws (by simp)
    -- so the stripped line is its whitespace-free token
    have hdecomp : pyStrip l = tok := by
      have := List.takeWhile_append_dropWhile (p := fun c => !pyIsSpace c) (l := pyStrip l)
      rw [← htok, ← hsfx, hsfxnil] at this
      simpa using this.symm
    rw [hdecomp] at hc
    have := mem_takeWhile_sat hc
    simpa using this

-- ---------------------------------------------------------------------------
-- service/kickstart.py : class QubesData
-- ---------------------------------------------------------------------------

/-- The serialized state of `QubesData`
(src/org_qubes_os_initial_setup/service/kickstart.py).  The twelve
`bool_options` attributes hold `True`, `False` or `None` (modelled as
`Option Bool`); `default_template` is a string or `None`; `vg_tpool` is a
`(volume_group, thin_pool)` pair or `None`.

Python's `__init__` leaves `create_default_tpool` entirely unset even though
it is listed in `bool_options`; the fresh record below models that unset slot
as `none` (the attribute is only ever written, never read, on every path used
by the theorems in this file). -/
structure KSRecord where
  system_vms : Option Bool
  disp_firewallvm_and_usbvm : Option Bool
  disp_netvm : Option Bool
  default_vms : Option Bool
  whonix_vms : Option Bool
  whonix_default : Option Bool
  usbvm : Option Bool
  usbvm_with_netvm : Option Bool
  skip : Option Bool
  allow_usb_mouse : Option Bool
  allow_usb_keyboard : Option Bool
  create_default_tpool : Option Bool
  default_template : Option PStr
  templates_to_install : List PStr
  vg_tpool : Option (PStr × PStr)
deriving DecidableEq, Repr

/-- The record produced by `QubesData.__init__`. -/
def freshKSRecord : KSRecord where
  system_vms := some true
  disp_firewallvm_and_usbvm := some true
  disp_netvm := some false
  default_vms := some true
  whonix_vms := none
  whonix_default := some false
  usbvm := none
  usbvm_with_netvm := some false
  skip := some false
  allow_usb_mouse := some false
  allow_usb_keyboard := none
  create_default_tpool := none
  default_template := none
  templates_to_install :=
    [ ("fedora").data, ("debian").data, ("whonix-gateway").data,
      ("whonix-workstation").data ]
  vg_tpool := none

/-- The `KickstartValueError` variants raised by `QubesData.handle_line`;
each carries the text interpolated into the Python message. -/
inductive KSError where
  | invalidLine (line : PStr)
  | invalidBoolValue (line : PStr)
  | invalidLvmPool (line : PStr)
  | invalidParameter (param : PStr)
deriving DecidableEq, Repr

/-- The `bool_options` tuple of `QubesData`. -/
def boolOptionNames : List PStr :=
  [ ("system_vms").data, ("disp_firewallvm_and_usbvm").data,
    ("disp_netvm").data, ("default_vms").data, ("whonix_vms").data,
    ("whonix_default").data, ("usbvm").data, ("usbvm_with_netvm").data,
    ("skip").data, ("allow_usb_mouse").data, ("allow_usb_keyboard").data,
    ("create_default_tpool").data ]

/-- `setattr(self, param, bool_value)` for a `param` known to be in
`bool_options`. -/
def setBoolField (r : KSRecord) (param : PStr) (b : Bool) : KSRecord :=
  if param = ("system_vms").data then { r with system_vms := some b }
  else if param = ("disp_firewallvm_and_usbvm").data then
    { r with disp_firewallvm_and_usbvm := some b }
  else if param = ("disp_netvm").data then { r with disp_netvm := some b }
  else if param = ("default_vms").data then { r with default_vms := some b }
  else if param = ("whonix_vms").data then { r with whonix_vms := some b }
  else if param = ("whonix_default").data then { r with whonix_default := some b }
  else if param = ("usbvm").data then { r with usbvm := some b }
  else if param = ("usbvm_with_netvm").data then
    { r with usbvm_with_netvm := some b }
  else if param = ("skip").data then { r with skip := some b }
  else if param = ("allow_usb_mouse").data then
    { r with allow_usb_mouse := some b }
  else if param = ("allow_usb_keyboard").data then
    { r with allow_usb_keyboard := some b }
  else if param = ("create_default_tpool").data then
    { r with create_default_tpool := some b }
  else r

/-- The parameter dispatch of `QubesData.handle_line` (the body after the
`(param, value)` extraction); `line` is the stripped line, used in error
messages. -/
def dispatchParam (r : KSRecord) (line param value : PStr) :
    Except KSError KSRecord :=
  if param ∈ boolOptionNames then
    if pyLower value ≠ ("true").data ∧ pyLower value ≠ ("false").data then
      Except.error (KSError.invalidBoolValue line)
    else
      Except.ok (setBoolField r param (pyLower value = ("true").data))
  else if param = ("default_template").data then
    Except.ok { r with default_template := some value }
  else if param = ("templates_to_install").data then
    Except.ok { r with templates_to_install :=
      (splitOnChar ' ' value).filter (fun t => !t.isEmpty) }
  else if param = ("lvm_pool").data then
    match splitOnChar '/' value with
    | [vg, tp] => Except.ok { r with vg_tpool := some (vg, tp) }
    | _ => Except.error (KSError.invalidLvmPool line)
  else
    Except.error (KSError.invalidParameter param)

/-- `QubesData.handle_line` (service/kickstart.py lines 81-112): strip the
line, split it into `param` and `value` (splitting on runs of whitespace, at
most once); if the split yields fewer than two tokens and the stripped line
contains no space, the whole line is the parameter and the value is empty,
otherwise the `invalid line` error is raised; then dispatch on the
parameter. -/
def handleLine (r : KSRecord) (line0 : PStr) : Except KSError KSRecord :=
  match pySplitMax1 (pyStrip line0) with
  | [param, value] => dispatchParam r (pyStrip line0) param value
  | _ =>
    if ' ' ∈ pyStrip line0 then
      Except.error (KSError.invalidLine (pyStrip line0))
    else dispatchParam r (pyStrip line0) (pyStrip line0) []

/-- One `"{} {!s}"` line of `QubesData.__str__` for a boolean option. -/
def boolLine (name : PStr) (v : Option Bool) : PStr :=
  name ++ ' ' :: pyOptBoolStr v

/-- The interior lines (those between `%addon ...` and `%end`) of the section
built by `QubesData.__str__` (service/kickstart.py lines 114-131), in order:
one line per `bool_options` entry, a `default_template` line when that field
is truthy, always a `templates_to_install` line, and an `lvm_pool` line when
`vg_tpool` is set. -/
def dtLines : Option PStr → List PStr
  | some s => if s.isEmpty then [] else [("default_template ").data ++ s]
  | none => []

def vgLines : Option (PStr × PStr) → List PStr
  | some (vg, tp) => [("lvm_pool ").data ++ (vg ++ '/' :: tp)]
  | none => []

def serializeLines (d : KSRecord) : List PStr :=
  [ boolLine (("system_vms").data) d.system_vms,
    boolLine (("disp_firewallvm_and_usbvm").data) d.disp_firewallvm_and_usbvm,
    boolLine (("disp_netvm").data) d.disp_netvm,
    boolLine (("default_vms").data) d.default_vms,
    boolLine (("whonix_vms").data) d.whonix_vms,
    boolLine (("whonix_default").data) d.whonix_default,
    boolLine (("usbvm").data) d.usbvm,
    boolLine (("usbvm_with_netvm").data) d.usbvm_with_netvm,
    boolLine (("skip").data) d.skip,
    boolLine (("allow_usb_mouse").data) d.allow_usb_mouse,
    boolLine (("allow_usb_keyboard").data) d.allow_usb_keyboard,
    boolLine (("create_default_tpool").data) d.create_default_tpool ]
  ++ dtLines d.default_template
  ++ [("templates_to_install ").data ++ joinChar ' ' d.templates_to_install]
  ++ vgLines d.vg_tpool

/-- Feed a list of lines to `handleLine` in order, stopping at the first
error (a raised `KickstartValueError` aborts kickstart parsing). -/
def parseLines (r : KSRecord) : List PStr → Except KSError KSRecord
  | [] => Except.ok r
  | l :: ls =>
    match handleLine r l with
    | Except.ok r' => parseLines r' ls
    | Except.error e => Except.error e

/-- Recognises the `invalid line` error of `handle_line`. -/
def isInvalidLineErr : Except KSError KSRecord → Bool
  | Except.error (KSError.invalidLine _) => true
  | _ => false

theorem pySplitMax1_shape (l : PStr) :
    pySplitMax1 l = [] ∨ (∃ t, pySplitMax1 l = [t]) ∨
      ∃ t v, pySplitMax1 l = [t, v] := by
  unfold pySplitMax1
  by_cases h1 : l.dropWhile pyIsSpace = []
  · left; simp [h1]
  · right
    by_cases h2 :
        ((l.dropWhile pyIsSpace).dropWhile (fun c => !pyIsSpace c)).dropWhile
          pyIsSpace = []
    · left
      refine ⟨(l.dropWhile pyIsSpace).takeWhile (fun c => !pyIsSpace c), ?_⟩
      simp [h1, h2]
    · right
      refine ⟨(l.dropWhile pyIsSpace).takeWhile (fun c => !pyIsSpace c),
        ((l.dropWhile pyIsSpace).dropWhile (fun c => !pyIsSpace c)).dropWhile
          pyIsSpace, ?_⟩
      simp [h1, h2]

theorem dispatchParam_not_invalid_line (r : KSRecord) (line param value : PStr) :
    isInvalidLineErr (dispatchParam r line param value) = false := by
  unfold dispatchParam
  split_ifs <;> first
    | rfl
    | (rename_i h; cases hs : splitOnChar '/' value with
       | nil => rfl
       | cons a t => cases t with
         | nil => rfl
         | cons b u => cases u <;> rfl)

/-- Claim C10: `QubesData.handle_line`'s `invalid line` error branch is dead
code.  First conjunct: whenever splitting the stripped line with
`maxsplit=1` yields fewer than two tokens (the case in which the Python
tuple-unpacking raises `ValueError`), the stripped line contains no space
character.  Second conjunct: consequently `handle_line` never returns the
`invalid line` error, for any record and any input line. -/
theorem c10_invalid_line_unreachable :
    (∀ l : PStr, (pySplitMax1 (pyStrip l)).length ≤ 1 →
        (pyStrip l).contains ' ' = false) ∧
    (∀ (r : KSRecord) (line : PStr),
        isInvalidLineErr (handleLine r line) = false) := by
  constructor
  · intro l hlen
    by_contra hne
    have hmem : ' ' ∈ pyStrip l := by
      have := Bool.of_not_eq_false hne
      simpa using this
    have := pySplitMax1_short_no_space l hlen ' ' hmem
    simp [pyIsSpace] at this
  · intro r line
    unfold handleLine
    rcases pySplitMax1_shape (pyStrip line) with h | ⟨t, h⟩ | ⟨t, v, h⟩
    · rw [h]
      have hnsp : ' ' ∉ pyStrip line := by
        intro hmem
        have := pySplitMax1_short_no_space line (by rw [h]; simp) ' ' hmem
        simp [pyIsSpace] at this
      simp only [if_neg hnsp]
      exact dispatchParam_not_invalid_line r _ _ _
    · rw [h]
      have hnsp : ' ' ∉ pyStrip line := by
        intro hmem
        have := pySplitMax1_short_no_space line (by rw [h]; simp) ' ' hmem
        simp [pyIsSpace] at this
      simp only [if_neg hnsp]
      exact dispatchParam_not_invalid_line r _ _ _
    · rw [h]
      exact dispatchParam_not_invalid_line r _ _ _

-- ---------------------------------------------------------------------------
-- Lemmas about lines of the form `param ++ ' ' :: value`
-- ---------------------------------------------------------------------------

theorem splitOnChar_ne_nil (sep : Char) (l : PStr) : splitOnChar sep l ≠ [] := by
  induction l with
  | nil => simp [splitOnChar]
  | cons c rest ih =>
    unfold splitOnChar
    cases h : splitOnChar sep rest with
    | nil => exact absurd h ih
    | cons t ts =>
      by_cases hc : c = sep <;> simp [hc]

theorem splitOnChar_no_sep {sep : Char} {l : PStr} (h : sep ∉ l) :
    splitOnChar sep l = [l] := by
  induction l with
  | nil => rfl
  | cons c rest ih =>
    have hc : c ≠ sep := fun he => h (he ▸ List.mem_cons_self c rest)
    have hrest : sep ∉ rest := fun hm => h (List.mem_cons_of_mem c hm)
    unfold splitOnChar
    rw [ih hrest]
    simp [hc]

theorem splitOnChar_append_sep {sep : Char} {e m : PStr} (h : sep ∉ e) :
    splitOnChar sep (e ++ sep :: m) = e :: splitOnChar sep m := by
  induction e with
  | nil =>
    show splitOnChar sep (sep :: m) = [] :: splitOnChar sep m
    simp only [splitOnChar]
    cases hm : splitOnChar sep m with
    | nil => exact absurd hm (splitOnChar_ne_nil sep m)
    | cons t ts => simp
  | cons c rest ih =>
    have hc : c ≠ sep := fun he => h (he ▸ List.mem_cons_self c rest)
    have hrest : sep ∉ rest := fun hm => h (List.mem_cons_of_mem c hm)
    show splitOnChar sep (c :: (rest ++ sep :: m)) = (c :: rest) :: splitOnChar sep m
    simp only [splitOnChar]
    rw [ih hrest]
    simp [hc]

theorem joinChar_split {sep : Char} {entries : List PStr}
    (hne : entries ≠ []) (h : ∀ e ∈ entries, sep ∉ e) :
    splitOnChar sep (joinChar sep entries) = entries := by
  induction entries with
  | nil => exact absurd rfl hne
  | cons e rest ih =>
    cases rest with
    | nil =>
      show splitOnChar sep (joinChar sep [e]) = [e]
      rw [show joinChar sep [e] = e from rfl]
      exact splitOnChar_no_sep (h e (List.mem_cons_self e []))
    | cons e2 r2 =>
      show splitOnChar sep (e ++ sep :: joinChar sep (e2 :: r2)) = e :: e2 :: r2
      rw [splitOnChar_append_sep (h e (List.mem_cons_self e _))]
      rw [ih (by simp) (fun x hx => h x (List.mem_cons_of_mem e hx))]

theorem filter_nonempty_eq_self {entries : List PStr}
    (h : ∀ e ∈ entries, e ≠ []) :
    entries.filter (fun t => !t.isEmpty) = entries := by
  induction entries with
  | nil => rfl
  | cons e rest ih =>
    have he : e ≠ [] := h e (List.mem_cons_self e rest)
    have : (!e.isEmpty) = true := by
      cases e with
      | nil => exact absurd rfl he
      | cons c t => rfl
    rw [List.filter_cons]
    simp only [this, if_pos]
    rw [ih (fun x hx => h x (List.mem_cons_of_mem e hx))]

/-- The head of a nonempty `joinChar` is the head of its first entry. -/
theorem joinChar_head? {sep : Char} {e : PStr} {rest : List PStr} (he : e ≠ []) :
    (joinChar sep (e :: rest)).head? = e.head? := by
  cases rest with
  | nil => rfl
  | cons e2 r2 =>
    show (e ++ sep :: joinChar sep (e2 :: r2)).head? = e.head?
    cases e with
    | nil => exact absurd rfl he
    | cons c t => rfl

/-- The last character of a nonempty `joinChar` is the last character of its
last entry (stated on reverses). -/
theorem joinChar_reverse_head? {sep : Char} {entries : List PStr}
    (hne : entries ≠ []) (h : ∀ e ∈ entries, e ≠ []) :
    ∃ e ∈ entries, (joinChar sep entries).reverse.head? = e.reverse.head? := by
  induction entries with
  | nil => exact absurd rfl hne
  | cons e rest ih =>
    cases rest with
    | nil => exact ⟨e, List.mem_cons_self e [], rfl⟩
    | cons e2 r2 =>
      obtain ⟨x, hx, hh⟩ := ih (by simp)
        (fun y hy => h y (List.mem_cons_of_mem e hy))
      refine ⟨x, List.mem_cons_of_mem e hx, ?_⟩
      show (e ++ sep :: joinChar sep (e2 :: r2)).reverse.head? = x.reverse.head?
      rw [List.reverse_append]
      have hj : joinChar sep (e2 :: r2) ≠ [] := by
        have hx2 : e2 ≠ [] := h e2 (by simp)
        cases r2 with
        | nil => exact hx2
        | cons a b =>
          show e2 ++ sep :: joinChar sep (a :: b) ≠ []
          simp [hx2]
      rw [show (sep :: joinChar sep (e2 :: r2)).reverse
            = (joinChar sep (e2 :: r2)).reverse ++ [sep] from by simp]
      cases hjr : (joinChar sep (e2 :: r2)).reverse with
      | nil =>
        exact absurd (by simpa using congrArg List.reverse hjr) hj
      | cons a b =>
        rw [← hh, hjr]
        rfl

/-- `pyStrip` is the identity on a list that neither starts nor ends with
whitespace. -/
theorem pyStrip_noop {l : PStr}
    (h1 : ∀ c, l.head? = some c → pyIsSpace c = false)
    (h2 : ∀ c, l.reverse.head? = some c → pyIsSpace c = false) :
    pyStrip l = l := by
  have hd : l.dropWhile pyIsSpace = l := by
    cases l with
    | nil => rfl
    | cons c t =>
      have := h1 c rfl
      rw [List.dropWhile_cons_of_neg (by simp [this])]
  have hr : l.reverse.dropWhile pyIsSpace = l.reverse := by
    cases hl : l.reverse with
    | nil => simp [hl]
    | cons c t =>
      have := h2 c (by rw [hl]; rfl)
      rw [List.dropWhile_cons_of_neg (by simp [this])]
  unfold pyStrip
  rw [hd, hr, List.reverse_reverse]

/-- Splitting `tok ++ ' ' :: v` with `maxsplit=1` yields exactly
`[tok, v]` when `tok` is a nonempty whitespace-free token and `v` is
nonempty and does not start with whitespace. -/
theorem pySplitMax1_token_value {tok v : PStr}
    (htok : tok ≠ []) (htokws : ∀ c ∈ tok, pyIsSpace c = false)
    (hv : v ≠ []) (hvh : ∀ c, v.head? = some c → pyIsSpace c = false) :
    pySplitMax1 (tok ++ ' ' :: v) = [tok, v] := by
  have htokp : ∀ c ∈ tok, (fun c => !pyIsSpace c) c = true := by
    intro c hc
    simp [htokws c hc]
  have hd1 : (tok ++ ' ' :: v).dropWhile pyIsSpace = tok ++ ' ' :: v := by
    cases tok with
    | nil => exact absurd rfl htok
    | cons c t =>
      have := htokws c (List.mem_cons_self c t)
      rw [List.cons_append, List.dropWhile_cons_of_neg (by simp [this])]
  have htake : (tok ++ ' ' :: v).takeWhile (fun c => !pyIsSpace c) = tok := by
    rw [List.takeWhile_append_of_pos htokp]
    rw [List.takeWhile_cons_of_neg (by simp [pyIsSpace])]
    simp
  have hdropnws :
      (tok ++ ' ' :: v).dropWhile (fun c => !pyIsSpace c) = ' ' :: v := by
    rw [List.dropWhile_append_of_pos htokp]
    rw [List.dropWhile_cons_of_neg (by simp [pyIsSpace])]
  have hdropws : (' ' :: v).dropWhile pyIsSpace = v := by
    rw [List.dropWhile_cons_of_pos (by simp [pyIsSpace])]
    cases v with
    | nil => exact absurd rfl hv
    | cons c t =>
      have := hvh c rfl
      rw [List.dropWhile_cons_of_neg (by simp [this])]
  unfold pySplitMax1
  rw [hd1]
  rw [if_neg (by simp [htok])]
  rw [htake, hdropnws, hdropws, if_neg hv]

/-- `handleLine` on a well-formed `param ++ ' ' :: value` line reduces to
the parameter dispatch. -/
theorem handleLine_token_value (r : KSRecord) {tok v : PStr}
    (htok : tok ≠ []) (htokws : ∀ c ∈ tok, pyIsSpace c = false)
    (hv : v ≠ []) (hvh : ∀ c, v.head? = some c → pyIsSpace c = false)
    (hvl : ∀ c, v.reverse.head? = some c → pyIsSpace c = false) :
    handleLine r (tok ++ ' ' :: v) = dispatchParam r (tok ++ ' ' :: v) tok v := by
  have hstrip : pyStrip (tok ++ ' ' :: v) = tok ++ ' ' :: v := by
    apply pyStrip_noop
    · intro c hc
      cases tok with
      | nil => exact absurd rfl htok
      | cons a t =>
        rw [List.cons_append] at hc
        simp at hc
        exact hc ▸ htokws a (List.mem_cons_self a t)
    · intro c hc
      rw [List.reverse_append] at hc
      cases hvr : v.reverse with
      | nil =>
        exact absurd (by simpa using congrArg List.reverse hvr) hv
      | cons a t =>
        rw [show (' ' :: v).reverse = v.reverse ++ [' '] from by simp] at hc
        rw [hvr] at hc
        simp at hc
        exact hvl c (by rw [hvr]; simp [hc])
  unfold handleLine
  rw [hstrip, pySplitMax1_token_value htok htokws hv hvh]

theorem head?_false_of_all {p : Char → Bool} {s : PStr}
    (h : ∀ c ∈ s, p c = false) : ∀ c, s.head? = some c → p c = false := by
  intro c hc
  cases s with
  | nil => simp at hc
  | cons a t =>
    simp at hc
    exact hc ▸ h a (List.mem_cons_self a t)

theorem rev_head?_false_of_all {p : Char → Bool} {s : PStr}
    (h : ∀ c ∈ s, p c = false) : ∀ c, s.reverse.head? = some c → p c = false := by
  intro c hc
  have hm : c ∈ s.reverse := by
    cases hs : s.reverse with
    | nil => rw [hs] at hc; simp at hc
    | cons a t =>
      rw [hs] at hc
      simp at hc
      simp [hc]
  exact h c (List.mem_reverse.1 hm)

theorem parseLines_cons_ok {r r' : KSRecord} {l : PStr} {ls : List PStr}
    (h : handleLine r l = Except.ok r') :
    parseLines r (l :: ls) = parseLines r' ls := by
  simp [parseLines, h]

/-- `handle_line` on a `default_template <value>` line sets the field. -/
theorem handleLine_default_template (r : KSRecord) {s : PStr}
    (hs : s ≠ []) (hws : ∀ c ∈ s, pyIsSpace c = false) :
    handleLine r (("default_template ").data ++ s) =
      Except.ok { r with default_template := some s } := by
  have hline : ("default_template ").data ++ s
      = ("default_template").data ++ ' ' :: s := rfl
  rw [hline,
    handleLine_token_value r (by decide) (by decide) hs
      (head?_false_of_all hws) (rev_head?_false_of_all hws)]
  unfold dispatchParam
  rw [if_neg (by decide), if_pos rfl]

/-- `handle_line` on a `templates_to_install ...` line sets the list, for
entries that are nonempty and whitespace-free. -/
theorem handleLine_templates (r : KSRecord) {entries : List PStr}
    (h : ∀ e ∈ entries, e ≠ [] ∧ ∀ c ∈ e, pyIsSpace c = false) :
    handleLine r (("templates_to_install ").data ++ joinChar ' ' entries) =
      Except.ok { r with templates_to_install := entries } := by
  cases entries with
  | nil => rfl
  | cons e0 rest =>
    set entries := e0 :: rest with hent
    have hne : entries ≠ [] := by simp [hent]
    have hnows : ∀ e ∈ entries, ' ' ∉ e := by
      intro e he hsp
      have := (h e he).2 ' ' hsp
      simp [pyIsSpace] at this
    have hv : joinChar ' ' entries ≠ [] := by
      intro hj
      have hh := @joinChar_head? ' ' e0 rest (h e0 (by simp [hent])).1
      rw [← hent, hj] at hh
      cases he0 : e0 with
      | nil => exact (h e0 (by simp [hent])).1 he0
      | cons a t =>
        rw [he0] at hh
        simp at hh
    have hvh : ∀ c, (joinChar ' ' entries).head? = some c → pyIsSpace c = false := by
      intro c hc
      have hh := @joinChar_head? ' ' e0 rest (h e0 (by simp [hent])).1
      rw [← hent] at hh
      rw [hh] at hc
      exact head?_false_of_all ((h e0 (by simp [hent])).2) c hc
    have hvl : ∀ c, (joinChar ' ' entries).reverse.head? = some c →
        pyIsSpace c = false := by
      intro c hc
      obtain ⟨e, he, hh⟩ := @joinChar_reverse_head? ' ' entries hne
        (fun e he => (h e he).1)
      rw [hh] at hc
      exact rev_head?_false_of_all ((h e he).2) c hc
    have hline : ("templates_to_install ").data ++ joinChar ' ' entries
        = ("templates_to_install").data ++ ' ' :: joinChar ' ' entries := rfl
    rw [hline,
      handleLine_token_value r (by decide) (by decide) hv hvh hvl]
    unfold dispatchParam
    rw [if_neg (by decide), if_neg (by decide), if_pos rfl]
    rw [joinChar_split hne hnows,
      filter_nonempty_eq_self (fun e he => (h e he).1)]

/-- `handle_line` on an `lvm_pool vg/tp` line sets the pair. -/
theorem handleLine_lvm_pool (r : KSRecord) {vg tp : PStr}
    (hvg : vg ≠ []) (htp : tp ≠ [])
    (hvgsl : '/' ∉ vg) (htpsl : '/' ∉ tp)
    (hvgws : ∀ c ∈ vg, pyIsSpace c = false)
    (htpws : ∀ c ∈ tp, pyIsSpace c = false) :
    handleLine r (("lvm_pool ").data ++ (vg ++ '/' :: tp)) =
      Except.ok { r with vg_tpool := some (vg, tp) } := by
  have hv : vg ++ '/' :: tp ≠ [] := by simp
  have hvh : ∀ c, (vg ++ '/' :: tp).head? = some c → pyIsSpace c = false := by
    intro c hc
    cases hvgc : vg with
    | nil => exact absurd hvgc hvg
    | cons a t =>
      rw [hvgc, List.cons_append] at hc
      simp at hc
      exact hc ▸ hvgws a (hvgc ▸ List.mem_cons_self a t)
  have hvl : ∀ c, (vg ++ '/' :: tp).reverse.head? = some c →
      pyIsSpace c = false := by
    intro c hc
    rw [List.reverse_append,
      show ('/' :: tp).reverse = tp.reverse ++ ['/'] from by simp] at hc
    cases htr : tp.reverse with
    | nil => exact absurd (by simpa using congrArg List.reverse htr) htp
    | cons a t =>
      rw [htr] at hc
      simp at hc
      exact rev_head?_false_of_all htpws c (by rw [htr]; simp [hc])
  have hline : ("lvm_pool ").data ++ (vg ++ '/' :: tp)
      = ("lvm_pool").data ++ ' ' :: (vg ++ '/' :: tp) := rfl
  rw [hline, handleLine_token_value r (by decide) (by decide) hv hvh hvl]
  unfold dispatchParam
  rw [if_neg (by decide), if_neg (by decide), if_neg (by decide), if_pos rfl]
  rw [splitOnChar_append_sep hvgsl, splitOnChar_no_sep htpsl]

theorem hlBool_system_vms (r : KSRecord) (b : Bool) :
    handleLine r (boolLine (("system_vms").data) (some b)) =
      Except.ok { r with system_vms := some b } := by cases b <;> rfl

theorem hlBool_disp_fw_usb (r : KSRecord) (b : Bool) :
    handleLine r (boolLine (("disp_firewallvm_and_usbvm").data) (some b)) =
      Except.ok { r with disp_firewallvm_and_usbvm := some b } := by
  cases b <;> rfl

theorem hlBool_disp_netvm (r : KSRecord) (b : Bool) :
    handleLine r (boolLine (("disp_netvm").data) (some b)) =
      Except.ok { r with disp_netvm := some b } := by cases b <;> rfl

theorem hlBool_default_vms (r : KSRecord) (b : Bool) :
    handleLine r (boolLine (("default_vms").data) (some b)) =
      Except.ok { r with default_vms := some b } := by cases b <;> rfl

theorem hlBool_whonix_vms (r : KSRecord) (b : Bool) :
    handleLine r (boolLine (("whonix_vms").data) (some b)) =
      Except.ok { r with whonix_vms := some b } := by cases b <;> rfl

theorem hlBool_whonix_default (r : KSRecord) (b : Bool) :
    handleLine r (boolLine (("whonix_default").data) (some b)) =
      Except.ok { r with whonix_default := some b } := by cases b <;> rfl

theorem hlBool_usbvm (r : KSRecord) (b : Bool) :
    handleLine r (boolLine (("usbvm").data) (some b)) =
      Except.ok { r with usbvm := some b } := by cases b <;> rfl

theorem hlBool_usbvm_with_netvm (r : KSRecord) (b : Bool) :
    handleLine r (boolLine (("usbvm_with_netvm").data) (some b)) =
      Except.ok { r with usbvm_with_netvm := some b } := by cases b <;> rfl

theorem hlBool_skip (r : KSRecord) (b : Bool) :
    handleLine r (boolLine (("skip").data) (some b)) =
      Except.ok { r with skip := some b } := by cases b <;> rfl

theorem hlBool_allow_usb_mouse (r : KSRecord) (b : Bool) :
    handleLine r (boolLine (("allow_usb_mouse").data) (some b)) =
      Except.ok { r with allow_usb_mouse := some b } := by cases b <;> rfl

theorem hlBool_allow_usb_keyboard (r : KSRecord) (b : Bool) :
    handleLine r (boolLine (("allow_usb_keyboard").data) (some b)) =
      Except.ok { r with allow_usb_keyboard := some b } := by cases b <;> rfl

theorem hlBool_create_default_tpool (r : KSRecord) (b : Bool) :
    handleLine r (boolLine (("create_default_tpool").data) (some b)) =
      Except.ok { r with create_default_tpool := some b } := by cases b <;> rfl

theorem parseLines_dtLines (r : KSRecord) {dt : Option PStr} (rest : List PStr)
    (hr : r.default_template = none)
    (hdt : dt = none ∨ ∃ s, dt = some s ∧ s ≠ [] ∧
      ∀ c ∈ s, pyIsSpace c = false) :
    parseLines r (dtLines dt ++ rest) =
      parseLines { r with default_template := dt } rest := by
  rcases hdt with h | ⟨s, hseq, hs, hws⟩
  · subst h
    show parseLines r ([] ++ rest) = _
    rw [List.nil_append]
    have : { r with default_template := (none : Option PStr) } = r := by
      cases r
      simp at hr
      simp [hr]
    rw [this]
  · subst hseq
    have hlines : dtLines (some s) = [("default_template ").data ++ s] := by
      show (if s.isEmpty = true then ([] : List PStr)
          else [("default_template ").data ++ s])
        = [("default_template ").data ++ s]
      rw [if_neg (by simpa [List.isEmpty_iff] using hs)]
    rw [hlines, List.singleton_append,
      parseLines_cons_ok (handleLine_default_template r hs hws)]

theorem parseLines_vgLines (r : KSRecord) {vgt : Option (PStr × PStr)}
    (hr : r.vg_tpool = none)
    (hvg : vgt = none ∨ ∃ vg tp, vgt = some (vg, tp) ∧ vg ≠ [] ∧ tp ≠ [] ∧
      '/' ∉ vg ∧ '/' ∉ tp ∧ (∀ c ∈ vg, pyIsSpace c = false) ∧
      (∀ c ∈ tp, pyIsSpace c = false)) :
    parseLines r (vgLines vgt) = Except.ok { r with vg_tpool := vgt } := by
  rcases hvg with h | ⟨vg, tp, hveq, hvgne, htpne, hvgsl, htpsl, hvgws, htpws⟩
  · subst h
    show parseLines r [] = _
    have : { r with vg_tpool := (none : Option (PStr × PStr)) } = r := by
      cases r
      simp at hr
      simp [hr]
    rw [this]
    rfl
  · subst hveq
    show parseLines r [("lvm_pool ").data ++ (vg ++ '/' :: tp)] = _
    rw [parseLines_cons_ok
      (handleLine_lvm_pool r hvgne htpne hvgsl htpsl hvgws htpws)]
    rfl

/-- Claim C3 (amended): round-trip of the settings record through its textual
form.  For every `QubesData` record whose twelve `bool_options` fields are
all set (not `None`), whose `default_template` is unset or a nonempty
whitespace-free string, whose `templates_to_install` entries are nonempty
strings containing no whitespace, and whose `vg_tpool` components (when set)
are nonempty and contain neither `/` nor whitespace, parsing each interior
line of the block produced by `QubesData.__str__` with `QubesData.handle_line`
on a fresh record reconstructs a record equal to the original in every
serialized field. -/
theorem c3_roundtrip_amended (d : KSRecord)
    (hb1 : d.system_vms ≠ none) (hb2 : d.disp_firewallvm_and_usbvm ≠ none)
    (hb3 : d.disp_netvm ≠ none) (hb4 : d.default_vms ≠ none)
    (hb5 : d.whonix_vms ≠ none) (hb6 : d.whonix_default ≠ none)
    (hb7 : d.usbvm ≠ none) (hb8 : d.usbvm_with_netvm ≠ none)
    (hb9 : d.skip ≠ none) (hb10 : d.allow_usb_mouse ≠ none)
    (hb11 : d.allow_usb_keyboard ≠ none) (hb12 : d.create_default_tpool ≠ none)
    (hdt : d.default_template = none ∨ ∃ s, d.default_template = some s ∧
      s ≠ [] ∧ ∀ c ∈ s, pyIsSpace c = false)
    (htpl : ∀ e ∈ d.templates_to_install, e ≠ [] ∧ ∀ c ∈ e, pyIsSpace c = false)
    (hvg : d.vg_tpool = none ∨ ∃ vg tp, d.vg_tpool = some (vg, tp) ∧ vg ≠ [] ∧
      tp ≠ [] ∧ '/' ∉ vg ∧ '/' ∉ tp ∧ (∀ c ∈ vg, pyIsSpace c = false) ∧
      (∀ c ∈ tp, pyIsSpace c = false)) :
    parseLines freshKSRecord (serializeLines d) = Except.ok d := by
  obtain ⟨f1, f2, f3, f4, f5, f6, f7, f8, f9, f10, f11, f12, fdt, ftpl, fvg⟩ := d
  obtain ⟨b1, e1⟩ := Option.ne_none_iff_exists'.mp hb1
  obtain ⟨b2, e2⟩ := Option.ne_none_iff_exists'.mp hb2
  obtain ⟨b3, e3⟩ := Option.ne_none_iff_exists'.mp hb3
  obtain ⟨b4, e4⟩ := Option.ne_none_iff_exists'.mp hb4
  obtain ⟨b5, e5⟩ := Option.ne_none_iff_exists'.mp hb5
  obtain ⟨b6, e6⟩ := Option.ne_none_iff_exists'.mp hb6
  obtain ⟨b7, e7⟩ := Option.ne_none_iff_exists'.mp hb7
  obtain ⟨b8, e8⟩ := Option.ne_none_iff_exists'.mp hb8
  obtain ⟨b9, e9⟩ := Option.ne_none_iff_exists'.mp hb9
  obtain ⟨b10, e10⟩ := Option.ne_none_iff_exists'.mp hb10
  obtain ⟨b11, e11⟩ := Option.ne_none_iff_exists'.mp hb11
  obtain ⟨b12, e12⟩ := Option.ne_none_iff_exists'.mp hb12
  subst e1; subst e2; subst e3; subst e4; subst e5; subst e6
  subst e7; subst e8; subst e9; subst e10; subst e11; subst e12
  simp only [serializeLines]
  simp only [List.append_assoc, List.cons_append, List.nil_append,
    List.singleton_append]
  rw [parseLines_cons_ok (hlBool_system_vms _ _),
    parseLines_cons_ok (hlBool_disp_fw_usb _ _),
    parseLines_cons_ok (hlBool_disp_netvm _ _),
    parseLines_cons_ok (hlBool_default_vms _ _),
    parseLines_cons_ok (hlBool_whonix_vms _ _),
    parseLines_cons_ok (hlBool_whonix_default _ _),
    parseLines_cons_ok (hlBool_usbvm _ _),
    parseLines_cons_ok (hlBool_usbvm_with_netvm _ _),
    parseLines_cons_ok (hlBool_skip _ _),
    parseLines_cons_ok (hlBool_allow_usb_mouse _ _),
    parseLines_cons_ok (hlBool_allow_usb_keyboard _ _),
    parseLines_cons_ok (hlBool_create_default_tpool _ _)]
  rcases hdt with hdtn | ⟨s, hdteq, hs, hws⟩
  · subst hdtn
    simp only [dtLines, List.nil_append]
    apply Eq.trans (parseLines_cons_ok (@handleLine_templates _ ftpl htpl))
    rcases hvg with hvgn | ⟨vg, tp, hveq, hvgne, htpne, hvgsl, htpsl, hvgws, htpws⟩
    · subst hvgn
      rfl
    · subst hveq
      simp only [vgLines]
      apply Eq.trans (parseLines_cons_ok
        (@handleLine_lvm_pool _ vg tp hvgne htpne hvgsl htpsl hvgws htpws))
      rfl
  · subst hdteq
    simp only [dtLines]
    rw [if_neg (by simpa [List.isEmpty_iff] using hs), List.singleton_append]
    apply Eq.trans (parseLines_cons_ok (@handleLine_default_template _ s hs hws))
    apply Eq.trans (parseLines_cons_ok (@handleLine_templates _ ftpl htpl))
    rcases hvg with hvgn | ⟨vg, tp, hveq, hvgne, htpne, hvgsl, htpsl, hvgws, htpws⟩
    · subst hvgn
      rfl
    · subst hveq
      simp only [vgLines]
      apply Eq.trans (parseLines_cons_ok
        (@handleLine_lvm_pool _ vg tp hvgne htpne hvgsl htpsl hvgws htpws))
      rfl

/-- A record satisfying all of claim C3's stated preconditions (its
`templates_to_install` entries are nonempty and space-free and `vg_tpool` is
unset) but whose `whonix_vms` flag is `None`, exactly as
`QubesData.__init__` leaves it. -/
def c3CounterRecord : KSRecord where
  system_vms := some true
  disp_firewallvm_and_usbvm := some true
  disp_netvm := some false
  default_vms := some true
  whonix_vms := none
  whonix_default := some false
  usbvm := some true
  usbvm_with_netvm := some false
  skip := some false
  allow_usb_mouse := some false
  allow_usb_keyboard := some false
  create_default_tpool := some true
  default_template := none
  templates_to_install := [ ("fedora").data, ("debian").data ]
  vg_tpool := none

/-- Counterexample to claim C3 as stated: `c3CounterRecord` satisfies the
claim's preconditions (nonempty space-free template entries; `vg_tpool`
unset), yet replaying the interior lines of its `__str__` block through
`handle_line` on a fresh record does not reconstruct the record — it raises
`KickstartValueError` on the line `whonix_vms None`, because `str(None)` is
not a valid boolean literal. -/
theorem c3_roundtrip_counterexample :
    (∀ e ∈ c3CounterRecord.templates_to_install, e ≠ [] ∧ ' ' ∉ e) ∧
    c3CounterRecord.vg_tpool = none ∧
    parseLines freshKSRecord (serializeLines c3CounterRecord) =
      Except.error (KSError.invalidBoolValue (("whonix_vms None").data)) := by
  refine ⟨by decide, rfl, ?_⟩
  rfl

/-- Witness for the amended C3 round-trip at a fully concrete record. -/
def c3WitnessRecord : KSRecord where
  system_vms := some true
  disp_firewallvm_and_usbvm := some true
  disp_netvm := some false
  default_vms := some true
  whonix_vms := some false
  whonix_default := some false
  usbvm := some true
  usbvm_with_netvm := some false
  skip := some false
  allow_usb_mouse := some false
  allow_usb_keyboard := some true
  create_default_tpool := some true
  default_template := some (("debian").data)
  templates_to_install := [ ("fedora").data, ("debian").data ]
  vg_tpool := some (("qubes_dom0").data, ("vm-pool").data)

theorem c3_roundtrip_amended_witness :
    parseLines freshKSRecord (serializeLines c3WitnessRecord) =
      Except.ok c3WitnessRecord :=
  c3_roundtrip_amended c3WitnessRecord
    (by decide) (by decide) (by decide) (by decide) (by decide) (by decide)
    (by decide) (by decide) (by decide) (by decide) (by decide) (by decide)
    (Or.inr ⟨("debian").data, rfl, by decide, by decide⟩)
    (by decide)
    (Or.inr ⟨("qubes_dom0").data, ("vm-pool").data, rfl, by decide, by decide,
      by decide, by decide, by decide, by decide⟩)

/-- Witness for C10 at concrete inputs: `"abc"` splits into a single token
and indeed contains no space, and a well-formed line never produces the
`invalid line` error. -/
theorem c10_invalid_line_unreachable_witness :
    ((pyStrip (("abc").data)).contains ' ' = false) ∧
    isInvalidLineErr (handleLine freshKSRecord (("lvm_pool a/b").data)) = false :=
  ⟨c10_invalid_line_unreachable.1 (("abc").data) (by decide),
   c10_invalid_line_unreachable.2 freshKSRecord (("lvm_pool a/b").data)⟩

-- ---------------------------------------------------------------------------
-- ks/qubes.py : QubesData.do_setup (the legacy provisioning driver)
-- ---------------------------------------------------------------------------

/-- Outcome of one provisioning step: it either completes or raises an
exception carrying a message. -/
inductive StepOutcome where
  | ok
  | fail (msg : PStr)
deriving DecidableEq, Repr

/-- The configuration flags of `ks/qubes.py`'s `QubesData` that decide which
provisioning steps `do_setup` runs. -/
structure SetupConfig where
  skip : Bool
  system_vms : Bool
  usbvm : Bool
  usbvm_with_netvm : Bool
  whonix_vms : Bool

/-- The name of the deferred step, as reported in the aggregated error. -/
def dvmStageName : PStr := ("Default DVM").data

/-- The step run inside the `try` block at the end of `do_setup`. -/
def dvmStep : PStr := ("configure_default_dvm").data

/-- The steps `do_setup` (ks/qubes.py lines 350-363) runs unprotected, in
program order: the six method calls, then `configure_network` when
`system_vms` is set, then the direct `systemctl start` of the sys-usb unit
when `usbvm and not usbvm_with_netvm`, then the direct `systemctl start` of
the sys-whonix unit when `whonix_vms` is set. -/
def setupSteps (cfg : SetupConfig) : List PStr :=
  [ ("configure_default_kernel").data,
    ("configure_default_pool").data,
    ("install_templates").data,
    ("configure_dom0").data,
    ("configure_default_template").data,
    ("configure_qubes").data ]
  ++ (if cfg.system_vms then [("configure_network").data] else [])
  ++ (if cfg.usbvm && !cfg.usbvm_with_netvm
      then [("start_sys_usb").data] else [])
  ++ (if cfg.whonix_vms then [("start_sys_whonix").data] else [])

/-- Run steps in order; an exception aborts the rest.  Returns the list of
steps that were started and the first error, if any. -/
def runFatalSteps (run : PStr → StepOutcome) : List PStr → List PStr × Option PStr
  | [] => ([], none)
  | s :: rest =>
    match run s with
    | StepOutcome.ok =>
      let (ex, e) := runFatalSteps run rest
      (s :: ex, e)
    | StepOutcome.fail m => ([s], some m)

/-- The `"{} failed:\n{}\n\n"` aggregation loop at the end of `do_setup`. -/
def aggMsg (errors : List (PStr × PStr)) : PStr :=
  errors.foldl
    (fun acc p => acc ++ p.1 ++ (" failed:\n").data ++ p.2 ++ ("\n\n").data) []

/-- `QubesData.do_setup` (ks/qubes.py lines 331-375), shallowly embedded over
an oracle `run` that gives each step's outcome.  `users` is the member list
of the `qubes` group.  Returns the list of steps started and the exception
message raised, if any.  The steps before the `try` block are fatal: the
first failure propagates and aborts the rest.  Only `configure_default_dvm`
is wrapped in `try`/`except`; its failure is recorded as
`('Default DVM', str(e))` and re-raised aggregated after the run. -/
def doSetup (users : List PStr) (cfg : SetupConfig)
    (run : PStr → StepOutcome) : List PStr × Option PStr :=
  if users.length < 1 then
    ([], some (("You must create a user account to create default VMs.").data))
  else if cfg.skip then ([], none)
  else
    match runFatalSteps run (setupSteps cfg) with
    | (ex, some m) => (ex, some m)
    | (ex, none) =>
      match run dvmStep with
      | StepOutcome.ok => (ex ++ [dvmStep], none)
      | StepOutcome.fail m =>
        (ex ++ [dvmStep], some (aggMsg [(dvmStageName, m)]))

theorem runFatalSteps_all_ok {run : PStr → StepOutcome} {steps : List PStr}
    (h : ∀ s ∈ steps, run s = StepOutcome.ok) :
    runFatalSteps run steps = (steps, none) := by
  induction steps with
  | nil => rfl
  | cons s rest ih =>
    unfold runFatalSteps
    rw [h s (List.mem_cons_self s rest),
      ih (fun x hx => h x (List.mem_cons_of_mem s hx))]

theorem runFatalSteps_first_fail {run : PStr → StepOutcome}
    {pre post : List PStr} {s m : PStr}
    (hpre : ∀ x ∈ pre, run x = StepOutcome.ok)
    (hs : run s = StepOutcome.fail m) :
    runFatalSteps run (pre ++ s :: post) = (pre ++ [s], some m) := by
  induction pre with
  | nil =>
    rw [List.nil_append]
    simp only [runFatalSteps]
    rw [hs]
    rfl
  | cons x xs ih =>
    rw [List.cons_append]
    simp only [runFatalSteps]
    rw [hpre x (List.mem_cons_self x xs),
      ih (fun y hy => hpre y (List.mem_cons_of_mem x hy))]
    rfl

/-- Claim C1: during a provisioning run with `skip` false (and a user account
present), a failure of the one step wrapped in `try` — default-DispVM
creation, reported as `Default DVM` — is deferred: all other steps still run,
and the aggregated error is raised only at the very end; while a failure of
any other step aborts immediately: exactly the steps up to and including the
failing one are started, the remaining steps and the DispVM step are never
run, and the step's own message propagates unaggregated. -/
theorem c1_dvm_error_aggregation (users : List PStr) (cfg : SetupConfig)
    (run : PStr → StepOutcome)
    (husers : users ≠ []) (hskip : cfg.skip = false) :
    ((∀ s ∈ setupSteps cfg, run s = StepOutcome.ok) →
      ∀ m, run dvmStep = StepOutcome.fail m →
        doSetup users cfg run =
          (setupSteps cfg ++ [dvmStep],
           some (dvmStageName ++ (" failed:\n").data ++ m ++ ("\n\n").data)))
    ∧ (∀ pre s post m, setupSteps cfg = pre ++ s :: post →
        (∀ x ∈ pre, run x = StepOutcome.ok) →
        run s = StepOutcome.fail m →
        doSetup users cfg run = (pre ++ [s], some m)) := by
  have husers' : ¬ users.length < 1 := by
    cases users with
    | nil => exact absurd rfl husers
    | cons a t => simp
  constructor
  · intro hall m hdvm
    unfold doSetup
    rw [if_neg husers', hskip]
    rw [if_neg (by simp)]
    rw [runFatalSteps_all_ok hall, hdvm]
    unfold aggMsg
    simp
  · intro pre s post m hdecomp hpre hfail
    unfold doSetup
    rw [if_neg husers', hskip]
    rw [if_neg (by simp)]
    rw [hdecomp, runFatalSteps_first_fail hpre hfail]

/-- Witness for C1: a concrete run in which only the DispVM step fails is
deferred and aggregated, and a concrete run in which `configure_dom0` fails
aborts right there. -/
theorem c1_dvm_error_aggregation_witness :
    (doSetup [("user").data]
      (SetupConfig.mk false true true false true)
      (fun s => if s = dvmStep
        then StepOutcome.fail (("boom").data) else StepOutcome.ok) =
      (setupSteps (SetupConfig.mk false true true false true) ++ [dvmStep],
       some (dvmStageName ++ (" failed:\n").data ++ ("boom").data
         ++ ("\n\n").data)))
    ∧ (doSetup [("user").data]
        (SetupConfig.mk false true true false true)
        (fun s => if s = ("configure_dom0").data
          then StepOutcome.fail (("broken").data) else StepOutcome.ok) =
        ([ ("configure_default_kernel").data,
           ("configure_default_pool").data,
           ("install_templates").data,
           ("configure_dom0").data ], some (("broken").data))) := by
  constructor
  · exact (c1_dvm_error_aggregation _ _ _ (by decide) rfl).1
      (by decide) (("boom").data) (by decide)
  · exact (c1_dvm_error_aggregation _ _ _ (by decide) rfl).2
      [ ("configure_default_kernel").data,
        ("configure_default_pool").data,
        ("install_templates").data ]
      (("configure_dom0").data)
      ([ ("configure_default_template").data, ("configure_qubes").data ]
        ++ [("configure_network").data] ++ [("start_sys_usb").data]
        ++ [("start_sys_whonix").data])
      (("broken").data) (by decide) (by decide) (by decide)

-- ---------------------------------------------------------------------------
-- service/tasks.py : BaseQubesTask.run_command and the task runners
-- ---------------------------------------------------------------------------

/-- What the single `util.startProgram` + `communicate()` + `decode` sequence
of an external command does: either some step of it raises (spawn failure,
communication failure, undecodable output — all caught by the `except`
block), or the process finishes with a return code and decoded output. -/
inductive LaunchResult where
  | threw (msg : PStr)
  | finished (returncode : Int) (stdout stderr : PStr)
deriving DecidableEq, Repr

/-- The two ways `run_command` raises: the stringified caught exception, or
the `"{} failed:..."` message built from the command and its decoded output
(carried structurally). -/
inductive RunErr where
  | excStr (msg : PStr)
  | cmdFailed (cmd : List PStr) (stdout stderr : PStr)
deriving DecidableEq, Repr

/-- `BaseQubesTask.run_command` (service/tasks.py lines 36-66).  `outcome n`
is the result of the `n`-th process launch the call performs; the first
component of the result counts how many launches happened (the body contains
exactly one `startProgram` call, with no retry loop and no rollback).  An
exception inside the `try` block becomes `process_error = str(e)`; a nonzero
exit code with `ignore_failure` false becomes the formatted failure message;
in either case the function raises, otherwise it returns the decoded
`(stdout, stderr)` pair. -/
def runCommand (cmd : List PStr) (outcome : Nat → LaunchResult)
    (ignore_failure : Bool) : Nat × Except RunErr (PStr × PStr) :=
  (1,
   match outcome 0 with
   | LaunchResult.threw m => Except.error (RunErr.excStr m)
   | LaunchResult.finished rc out err =>
     if ignore_failure = false ∧ rc ≠ 0 then
       Except.error (RunErr.cmdFailed cmd out err)
     else Except.ok (out, err))

/-- Claim C5: `run_command` launches the external command exactly once, and
raises if and only if the launch throws, or the process exits nonzero while
`ignore_failure` is false; otherwise it returns the decoded
`(stdout, stderr)` pair. -/
theorem c5_run_command (cmd : List PStr) (outcome : Nat → LaunchResult)
    (ig : Bool) :
    (runCommand cmd outcome ig).1 = 1 ∧
    (∀ m, outcome 0 = LaunchResult.threw m →
      (runCommand cmd outcome ig).2 = Except.error (RunErr.excStr m)) ∧
    (∀ (rc : Int) out err, outcome 0 = LaunchResult.finished rc out err →
      ((rc ≠ 0 ∧ ig = false) →
        (runCommand cmd outcome ig).2 =
          Except.error (RunErr.cmdFailed cmd out err)) ∧
      ((rc = 0 ∨ ig = true) →
        (runCommand cmd outcome ig).2 = Except.ok (out, err))) := by
  refine ⟨rfl, ?_, ?_⟩
  · intro m h
    simp [runCommand, h]
  · intro rc out err h
    constructor
    · rintro ⟨hrc, hig⟩
      subst hig
      simp [runCommand, h, hrc]
    · intro h2
      rcases h2 with h2 | h2 <;> subst h2 <;> simp [runCommand, h]

/-- Witness for C5: a process that exits 0 yields its output; a process that
exits 1 without `ignore_failure` yields the failure error. -/
theorem c5_run_command_witness :
    (runCommand [("true").data]
      (fun _ => LaunchResult.finished 0 [] []) false).2 = Except.ok ([], []) ∧
    (runCommand [("false").data]
      (fun _ => LaunchResult.finished 1 [] []) false).2 =
      Except.error (RunErr.cmdFailed [("false").data] [] []) :=
  ⟨((c5_run_command [("true").data] _ false).2.2 0 [] [] rfl).2 (Or.inl rfl),
   ((c5_run_command [("false").data] _ false).2.2 1 [] [] rfl).1
     ⟨by decide, rfl⟩⟩

/-- `run_command` against a deterministic environment mapping each command to
its launch result; used by the task embeddings below. -/
def runCmdE (env : List PStr → LaunchResult) (cmd : List PStr)
    (ig : Bool) : Except RunErr (PStr × PStr) :=
  (runCommand cmd (fun _ => env cmd) ig).2

/-- The exceptions a task run can raise. -/
inductive TaskErr where
  | cannotFindVG
  | cmd (e : RunErr)
  | uncaught (msg : PStr)
deriving DecidableEq, Repr

-- DefaultPoolTask (service/tasks.py lines 83-141)

def lvcreateCmd (vg tp : PStr) : List PStr :=
  [ ("/usr/sbin/lvcreate").data, ("-l").data, ("90%FREE").data,
    ("--thinpool").data, tp, vg ]

def qvmPoolInfoCmd (tp : PStr) : List PStr :=
  [ ("qvm-pool").data, ("info").data, tp ]

def qvmPoolAddCmd (vg tp : PStr) : List PStr :=
  [ ("/usr/bin/qvm-pool").data, ("--add").data, tp, ("lvm_thin").data,
    ("-o").data,
    ("volume_group=").data ++ vg ++ (",thin_pool=").data ++ tp
      ++ (",revisions_to_keep=2").data ]

def qubesPrefsDefaultPoolCmd (tp : PStr) : List PStr :=
  [ ("/usr/bin/qubes-prefs").data, ("default-pool").data, tp ]

/-- The second half of `DefaultPoolTask.run` (lines 115-141), entered when
`vg_tpool` is truthy: probe the pool with `qvm-pool info` (directly via
`startProgram`, so a spawn exception propagates uncaught), register it with
`qvm-pool --add` only when the probe exits nonzero, then always set it as
the default pool. -/
def defaultPoolSecond (vg tp : PStr) (env : List PStr → LaunchResult) :
    List (List PStr) × Except TaskErr Unit :=
  match env (qvmPoolInfoCmd tp) with
  | LaunchResult.threw m =>
    ([qvmPoolInfoCmd tp], Except.error (TaskErr.uncaught m))
  | LaunchResult.finished rc _ _ =>
    if rc ≠ 0 then
      match runCmdE env (qvmPoolAddCmd vg tp) false with
      | Except.error e =>
        ([qvmPoolInfoCmd tp, qvmPoolAddCmd vg tp],
         Except.error (TaskErr.cmd e))
      | Except.ok _ =>
        match runCmdE env (qubesPrefsDefaultPoolCmd tp) false with
        | Except.error e =>
          ([qvmPoolInfoCmd tp, qvmPoolAddCmd vg tp,
            qubesPrefsDefaultPoolCmd tp], Except.error (TaskErr.cmd e))
        | Except.ok _ =>
          ([qvmPoolInfoCmd tp, qvmPoolAddCmd vg tp,
            qubesPrefsDefaultPoolCmd tp], Except.ok ())
    else
      match runCmdE env (qubesPrefsDefaultPoolCmd tp) false with
      | Except.error e =>
        ([qvmPoolInfoCmd tp, qubesPrefsDefaultPoolCmd tp],
         Except.error (TaskErr.cmd e))
      | Except.ok _ =>
        ([qvmPoolInfoCmd tp, qubesPrefsDefaultPoolCmd tp], Except.ok ())

/-- `DefaultPoolTask.run` (service/tasks.py lines 93-141).  When
`create_default_tpool` is requested and `vg_tpool` is `None` it raises
`Cannot find default LVM volume group`; when creation is requested with a
pool set, it runs `lvcreate` first; then, whenever `vg_tpool` is truthy, the
second half follows.  Returns the launched commands in order and the
outcome. -/
def defaultPoolRun (create_default_tpool : Bool)
    (vg_tpool : Option (PStr × PStr)) (env : List PStr → LaunchResult) :
    List (List PStr) × Except TaskErr Unit :=
  if create_default_tpool then
    match vg_tpool with
    | none => ([], Except.error TaskErr.cannotFindVG)
    | some (vg, tp) =>
      match runCmdE env (lvcreateCmd vg tp) false with
      | Except.error e => ([lvcreateCmd vg tp], Except.error (TaskErr.cmd e))
      | Except.ok _ =>
        match defaultPoolSecond vg tp env with
        | (tr, res) => (lvcreateCmd vg tp :: tr, res)
  else
    match vg_tpool with
    | none => ([], Except.ok ())
    | some (vg, tp) => defaultPoolSecond vg tp env


theorem defaultPoolSecond_ne_cannotFind (vg tp : PStr)
    (env : List PStr → LaunchResult) :
    (defaultPoolSecond vg tp env).2 ≠ Except.error TaskErr.cannotFindVG := by
  unfold defaultPoolSecond
  cases henv : env (qvmPoolInfoCmd tp) with
  | threw m => simp
  | finished rc o e =>
    by_cases hrc : rc ≠ 0
    · simp only [if_pos hrc]
      cases h1 : runCmdE env (qvmPoolAddCmd vg tp) false with
      | error e1 => simp
      | ok a =>
        cases h2 : runCmdE env (qubesPrefsDefaultPoolCmd tp) false with
        | error e2 => simp
        | ok b => simp
    · simp only [if_neg hrc]
      cases h2 : runCmdE env (qubesPrefsDefaultPoolCmd tp) false with
      | error e2 => simp
      | ok b => simp

theorem defaultPoolSecond_all_ok (vg tp : PStr)
    (env : List PStr → LaunchResult) (rc : Int) (o e ao ae po pe : PStr)
    (hprobe : env (qvmPoolInfoCmd tp) = LaunchResult.finished rc o e)
    (hadd : env (qvmPoolAddCmd vg tp) = LaunchResult.finished 0 ao ae)
    (hprefs : env (qubesPrefsDefaultPoolCmd tp) =
      LaunchResult.finished 0 po pe) :
    defaultPoolSecond vg tp env =
      ([qvmPoolInfoCmd tp] ++ (if rc ≠ 0 then [qvmPoolAddCmd vg tp] else [])
        ++ [qubesPrefsDefaultPoolCmd tp], Except.ok ()) := by
  have ha : runCmdE env (qvmPoolAddCmd vg tp) false = Except.ok (ao, ae) := by
    unfold runCmdE runCommand
    simp [hadd]
  have hp : runCmdE env (qubesPrefsDefaultPoolCmd tp) false =
      Except.ok (po, pe) := by
    unfold runCmdE runCommand
    simp [hprefs]
  unfold defaultPoolSecond
  simp only [hprobe]
  by_cases hrc : rc ≠ 0
  · simp only [if_pos hrc, ha, hp]
    rfl
  · simp only [if_neg hrc, hp]
    rfl

theorem c6_default_pool_task :
    (∀ env, defaultPoolRun true none env =
      ([], Except.error TaskErr.cannotFindVG))
    ∧ (∀ c vgt env,
        (defaultPoolRun c vgt env).2 = Except.error TaskErr.cannotFindVG →
        c = true ∧ vgt = none)
    ∧ (∀ c vg tp (env : List PStr → LaunchResult) (rc : Int) o e lo le ao ae
          po pe,
        env (qvmPoolInfoCmd tp) = LaunchResult.finished rc o e →
        env (lvcreateCmd vg tp) = LaunchResult.finished 0 lo le →
        env (qvmPoolAddCmd vg tp) = LaunchResult.finished 0 ao ae →
        env (qubesPrefsDefaultPoolCmd tp) = LaunchResult.finished 0 po pe →
        defaultPoolRun c (some (vg, tp)) env =
          ((if c then [lvcreateCmd vg tp] else []) ++ [qvmPoolInfoCmd tp]
            ++ (if rc ≠ 0 then [qvmPoolAddCmd vg tp] else [])
            ++ [qubesPrefsDefaultPoolCmd tp],
           Except.ok ())) := by
  refine ⟨fun env => rfl, ?_, ?_⟩
  · intro c vgt env h
    cases vgt with
    | none =>
      cases c with
      | true => exact ⟨rfl, rfl⟩
      | false => simp [defaultPoolRun] at h
    | some p =>
      obtain ⟨vg, tp⟩ := p
      exfalso
      cases c with
      | false => exact defaultPoolSecond_ne_cannotFind vg tp env h
      | true =>
        revert h
        unfold defaultPoolRun
        simp only [if_true]
        cases hlv : runCmdE env (lvcreateCmd vg tp) false with
        | error e1 => simp
        | ok a =>
          cases hsec : defaultPoolSecond vg tp env with
          | mk tr res =>
            intro h
            apply defaultPoolSecond_ne_cannotFind vg tp env
            rw [hsec]
            exact h
  · intro c vg tp env rc o e lo le ao ae po pe hprobe hlv hadd hprefs
    have hl : runCmdE env (lvcreateCmd vg tp) false = Except.ok (lo, le) := by
      unfold runCmdE runCommand
      simp [hlv]
    have hsec := defaultPoolSecond_all_ok vg tp env rc o e ao ae po pe
      hprobe hadd hprefs
    cases c with
    | false =>
      show defaultPoolSecond vg tp env = _
      rw [hsec]
      simp
    | true =>
      show (match runCmdE env (lvcreateCmd vg tp) false with
        | Except.error e => ([lvcreateCmd vg tp], Except.error (TaskErr.cmd e))
        | Except.ok _ =>
          match defaultPoolSecond vg tp env with
          | (tr, res) => (lvcreateCmd vg tp :: tr, res)) = _
      rw [hl, hsec]
      simp

/-- Witness for C6: with a pool set, creation requested, and every command
succeeding (probe exits 0, so the pool is already registered), the run is
`lvcreate`, the probe, then setting the default pool. -/
theorem c6_default_pool_task_witness :
    defaultPoolRun true
      (some (("qubes_dom0").data, ("vm-pool").data))
      (fun _ => LaunchResult.finished 0 [] []) =
      ([ lvcreateCmd (("qubes_dom0").data) (("vm-pool").data),
         qvmPoolInfoCmd (("vm-pool").data),
         qubesPrefsDefaultPoolCmd (("vm-pool").data) ],
       Except.ok ()) := by
  have := c6_default_pool_task.2.2 true (("qubes_dom0").data)
    (("vm-pool").data) (fun _ => LaunchResult.finished 0 [] [])
    0 [] [] [] [] [] [] [] [] rfl rfl rfl rfl
  simpa using this

-- ConfigureDom0Task (service/tasks.py lines 172-185)

/-- Run a list of `(command, ignore_failure)` pairs through `run_command` in
order, stopping at the first raised exception. -/
def runSeq (env : List PStr → LaunchResult) :
    List (List PStr × Bool) → List (List PStr) × Except RunErr Unit
  | [] => ([], Except.ok ())
  | (c, ig) :: rest =>
    match runCmdE env c ig with
    | Except.error e => ([c], Except.error e)
    | Except.ok _ =>
      match runSeq env rest with
      | (tr, r) => (c :: tr, r)

def systemctlCmd (verb svc : PStr) : List PStr :=
  [ ("systemctl").data, verb, svc ++ (".service").data ]

/-- The loop body of `ConfigureDom0Task.run`: for each of the four services,
`systemctl disable` then `systemctl stop`, every call with
`ignore_failure=True`. -/
def dom0Cmds : List (List PStr × Bool) :=
  [ ("rdisc").data, ("kdump").data, ("libvirt-guests").data,
    ("salt-minion").data ].foldr
    (fun s acc =>
      (systemctlCmd (("disable").data) s, true)
        :: (systemctlCmd (("stop").data) s, true) :: acc) []

/-- `ConfigureDom0Task.run` (service/tasks.py lines 177-185). -/
def configureDom0Run (env : List PStr → LaunchResult) :
    List (List PStr) × Except RunErr Unit :=
  runSeq env dom0Cmds

/-- Claim C7: `ConfigureDom0Task` disables and then stops exactly the four
services `rdisc`, `kdump`, `libvirt-guests`, `salt-minion`, in that order,
each of the eight `systemctl` calls in ignore-failure mode; whenever every
launch returns (with any exit code whatsoever, zero or not), the task
completes without raising. -/
theorem c7_configure_dom0 (env : List PStr → LaunchResult)
    (h : ∀ cmd, ∃ (rc : Int) (out err : PStr),
      env cmd = LaunchResult.finished rc out err) :
    configureDom0Run env =
      ([ [("systemctl").data, ("disable").data, ("rdisc.service").data],
         [("systemctl").data, ("stop").data, ("rdisc.service").data],
         [("systemctl").data, ("disable").data, ("kdump.service").data],
         [("systemctl").data, ("stop").data, ("kdump.service").data],
         [("systemctl").data, ("disable").data,
           ("libvirt-guests.service").data],
         [("systemctl").data, ("stop").data, ("libvirt-guests.service").data],
         [("systemctl").data, ("disable").data, ("salt-minion.service").data],
         [("systemctl").data, ("stop").data, ("salt-minion.service").data] ],
       Except.ok ()) := by
  have hok : ∀ cmd, ∃ out err, runCmdE env cmd true = Except.ok (out, err) := by
    intro cmd
    obtain ⟨rc, out, err, hc⟩ := h cmd
    exact ⟨out, err, by simp [runCmdE, runCommand, hc]⟩
  obtain ⟨o1, e1, h1⟩ := hok (systemctlCmd (("disable").data) (("rdisc").data))
  obtain ⟨o2, e2, h2⟩ := hok (systemctlCmd (("stop").data) (("rdisc").data))
  obtain ⟨o3, e3, h3⟩ := hok (systemctlCmd (("disable").data) (("kdump").data))
  obtain ⟨o4, e4, h4⟩ := hok (systemctlCmd (("stop").data) (("kdump").data))
  obtain ⟨o5, e5, h5⟩ :=
    hok (systemctlCmd (("disable").data) (("libvirt-guests").data))
  obtain ⟨o6, e6, h6⟩ :=
    hok (systemctlCmd (("stop").data) (("libvirt-guests").data))
  obtain ⟨o7, e7, h7⟩ :=
    hok (systemctlCmd (("disable").data) (("salt-minion").data))
  obtain ⟨o8, e8, h8⟩ :=
    hok (systemctlCmd (("stop").data) (("salt-minion").data))
  simp only [configureDom0Run, dom0Cmds, List.foldr, runSeq,
    h1, h2, h3, h4, h5, h6, h7, h8]
  rfl

/-- Witness for C7: with every launch exiting 1 (nonzero), the dom0 task
still runs all eight commands and completes without raising. -/
theorem c7_configure_dom0_witness :
    configureDom0Run (fun _ => LaunchResult.finished 1 [] []) =
      ([ [("systemctl").data, ("disable").data, ("rdisc.service").data],
         [("systemctl").data, ("stop").data, ("rdisc.service").data],
         [("systemctl").data, ("disable").data, ("kdump.service").data],
         [("systemctl").data, ("stop").data, ("kdump.service").data],
         [("systemctl").data, ("disable").data,
           ("libvirt-guests.service").data],
         [("systemctl").data, ("stop").data, ("libvirt-guests.service").data],
         [("systemctl").data, ("disable").data, ("salt-minion.service").data],
         [("systemctl").data, ("stop").data, ("salt-minion.service").data] ],
       Except.ok ()) :=
  c7_configure_dom0 (fun _ => LaunchResult.finished 1 [] [])
    (fun _ => ⟨1, [], [], rfl⟩)

-- ---------------------------------------------------------------------------
-- service/qubes.py : QubesInitialSetup.install_with_tasks
-- ---------------------------------------------------------------------------

/-- The module state consumed by `install_with_tasks`
(src/org_qubes_os_initial_setup/service/qubes.py). -/
structure Settings where
  whonix_vms : Bool
  whonix_available : Bool
  skip : Bool
  usbvm : Bool
  usbvm_with_netvm : Bool
  default_template : Option PStr
  lvm_setup : Bool
  create_default_tpool : Bool
  vg_tpool : Option (PStr × PStr)
  templates_to_install : List PStr
  system_vms : Bool
  disp_firewallvm_and_usbvm : Bool
  disp_netvm : Bool
  default_vms : Bool
  whonix_default : Bool
  allow_usb_mouse : Bool
  allow_usb_keyboard : Bool
deriving DecidableEq, Repr

/-- The task constructions `install_with_tasks` performs before reaching the
`ConfigureDefaultQubesTask(...)` call, as data. -/
inductive PTask where
  | defaultKernel
  | defaultPool (create_default_tpool : Bool) (vg_tpool : Option (PStr × PStr))
  | installTemplate (template : PStr)
  | cleanTemplatePkgs
  | configureDom0
  | setDefaultTemplate (default_template : PStr)
deriving DecidableEq, Repr

/-- The uncaught Python exception that terminates `install_with_tasks` in
this source snapshot: a constructor call missing a required argument. -/
inductive PyExc where
  | typeError (cls missingArg : PStr)
deriving DecidableEq, Repr

/-- Python `any(x.isdigit() for x in s)`. -/
def pyAnyDigit (s : PStr) : Bool := s.any Char.isDigit

/-- Lines 210-224 of service/qubes.py: when `default_template` is truthy and
contains no digit, look its version up in the template package list and
resolve it to `name-version`; when the lookup fails, log a warning and leave
the local `default_template` as `None`; otherwise keep the attribute value
unchanged. -/
def resolveDefaultTemplate (dt : Option PStr)
    (versionOf : PStr → Option PStr) : Option PStr :=
  match dt with
  | some s =>
    if s ≠ [] ∧ pyAnyDigit s = false then
      match versionOf s with
      | some v => some (s ++ '-' :: v)
      | none => none
    else some s
  | none => none

/-- Lines 202-204 of service/qubes.py: drop the whonix selection when the
whonix templates are unavailable. -/
def adjustWhonix (s : Settings) : Settings :=
  if s.whonix_vms && !s.whonix_available then { s with whonix_vms := false }
  else s

/-- `QubesInitialSetup.install_with_tasks` (service/qubes.py lines 201-262).
After the whonix adjustment and the `skip` early return, the function
appends `DefaultKernelTask`, optionally `DefaultPoolTask`, one
`InstallTemplateTask` per selected template, `CleanTemplatePkgsTask`,
`ConfigureDom0Task` and optionally `SetDefaultTemplateTask` — and then calls
`ConfigureDefaultQubesTask(system_vms=..., ..., disp_netvm=...)`.  In this
source snapshot that constructor (service/tasks.py line 205) requires an
eleventh argument `disp_preload` which the call site does not pass (and
`ConfigureNetworkTask`, further down, likewise requires a `start_whonix`
argument that is not passed), so the call raises
`TypeError: missing 1 required positional argument` and the already built
list is discarded; the appends after that point are unreachable. -/
def installWithTasks (s0 : Settings) (versionOf : PStr → Option PStr) :
    Except PyExc (List PTask) :=
  let s := adjustWhonix s0
  if s.skip then Except.ok []
  else
    let _start_usb := s.usbvm && !s.usbvm_with_netvm
    let default_template := resolveDefaultTemplate s.default_template versionOf
    let _tasks : List PTask := [PTask.defaultKernel]
    let _tasks := _tasks ++
      (if s.lvm_setup then
        [PTask.defaultPool s.create_default_tpool s.vg_tpool] else [])
    let _tasks := _tasks ++ s.templates_to_install.map PTask.installTemplate
    let _tasks := _tasks ++ [PTask.cleanTemplatePkgs]
    let _tasks := _tasks ++ [PTask.configureDom0]
    let _tasks := _tasks ++
      (match default_template with
       | some dt => if dt ≠ [] then [PTask.setDefaultTemplate dt] else []
       | none => [])
    Except.error (PyExc.typeError (("ConfigureDefaultQubesTask").data)
      (("disp_preload").data))

theorem adjustWhonix_skip (s : Settings) : (adjustWhonix s).skip = s.skip := by
  unfold adjustWhonix
  split <;> rfl

/-- Claim C8: with the `skip` option set, `install_with_tasks` returns the
empty task list before building any task, regardless of every other
setting. -/
theorem c8_skip_returns_empty (s : Settings) (versionOf : PStr → Option PStr)
    (h : s.skip = true) :
    installWithTasks s versionOf = Except.ok [] := by
  have hs : (adjustWhonix s).skip = true := by rw [adjustWhonix_skip]; exact h
  simp [installWithTasks, hs]

/-- Witness for C8 at a concrete record with every template selected. -/
theorem c8_skip_returns_empty_witness :
    installWithTasks
      (Settings.mk true true true true false (some (("fedora").data)) true
        true (some (("qubes_dom0").data, ("vm-pool").data))
        [("fedora").data, ("debian").data] true true false true false false
        true)
      (fun _ => none) = Except.ok [] :=
  c8_skip_returns_empty _ _ rfl

/-- The default module state of `QubesInitialSetup.__init__` when templates
and a thin pool were found, with `skip` false — the state of any ordinary
non-skipped provisioning run. -/
def defaultRunSettings : Settings where
  whonix_vms := true
  whonix_available := true
  skip := false
  usbvm := true
  usbvm_with_netvm := false
  default_template := none
  lvm_setup := true
  create_default_tpool := true
  vg_tpool := some (("qubes_dom0").data, ("vm-pool").data)
  templates_to_install :=
    [("fedora").data, ("debian").data, ("whonix-gw").data, ("whonix-ws").data]
  system_vms := true
  disp_firewallvm_and_usbvm := true
  disp_netvm := false
  default_vms := true
  whonix_default := false
  allow_usb_mouse := false
  allow_usb_keyboard := false

/-- Claim C2 (divergence witness): on the default non-skipped settings,
`install_with_tasks` does not return the claimed ordered task list; it
raises `TypeError` because the `ConfigureDefaultQubesTask` constructor
requires a `disp_preload` argument the call site does not pass.  The same
happens for every settings record with `skip` false. -/
theorem c2_install_with_tasks_type_error :
    installWithTasks defaultRunSettings (fun _ => none) =
      Except.error (PyExc.typeError (("ConfigureDefaultQubesTask").data)
        (("disp_preload").data)) := by
  rfl

/-- The default state with a versionless `default_template` chosen whose
template package is absent. -/
def c9Settings : Settings :=
  { defaultRunSettings with default_template := some (("debian").data) }

/-- Claim C9 (divergence witness): the resolution of a digit-free
`default_template` via the template package list behaves as claimed — found
versions yield `name-version`, a missing package resolves to `None` so the
default-template (and default-DispVM) tasks would be omitted — but the run
nonetheless fails: `install_with_tasks` raises `TypeError` constructing
`ConfigureDefaultQubesTask` before it could return the sequence. -/
theorem c9_default_template_resolution :
    resolveDefaultTemplate (some (("debian").data))
      (fun t => if t = ("debian").data then some (("12").data) else none)
      = some (("debian-12").data)
    ∧ resolveDefaultTemplate (some (("debian").data)) (fun _ => none) = none
    ∧ installWithTasks c9Settings (fun _ => none) =
        Except.error (PyExc.typeError (("ConfigureDefaultQubesTask").data)
          (("disp_preload").data)) := by
  refine ⟨?_, rfl, rfl⟩
  rfl

-- ---------------------------------------------------------------------------
-- utils.py : get_default_tpool
-- ---------------------------------------------------------------------------

/-- LVM's device-mapper name escaping: each `-` inside a volume-group or
logical-volume name appears doubled (`--`) in the device name. -/
def lvmEncode : PStr → PStr
  | [] => []
  | c :: rest =>
    if c = '-' then '-' :: '-' :: lvmEncode rest else c :: lvmEncode rest

/-- Python `str.replace('--', '=')`: replace non-overlapping occurrences of
`--`, scanning left to right. -/
def replaceDD : PStr → PStr
  | [] => []
  | [c] => [c]
  | c1 :: c2 :: rest =>
    if c1 = '-' && c2 = '-' then '=' :: replaceDD rest
    else c1 :: replaceDD (c2 :: rest)

/-- `str.replace('-', '=')` on a single character. -/
def dashToEq (c : Char) : Char := if c = '-' then '=' else c

/-- `str.replace('=', '-')` on a single character. -/
def eqToDash (c : Char) : Char := if c = '=' then '-' else c

/-- Python `str.split(sep, maxsplit)` for a one-character separator. -/
def splitCharMax (sep : Char) : Nat → PStr → List PStr
  | _, [] => [[]]
  | 0, l => [l]
  | n+1, c :: rest =>
    if c = sep then [] :: splitCharMax sep n rest
    else
      match splitCharMax sep (n+1) rest with
      | [] => [[c]]
      | t :: ts => (c :: t) :: ts

/-- Python `str.rsplit(sep, maxsplit)`: split from the right. -/
def pyRsplitChar (sep : Char) (maxsplit : Nat) (l : PStr) : List PStr :=
  ((splitCharMax sep maxsplit l.reverse).map List.reverse).reverse

/-- Python `str.rstrip('\n')`. -/
def pyRstripNl (l : PStr) : PStr :=
  (l.reverse.dropWhile (fun c => c = '\n')).reverse

/-- Python `str.endswith("-tpool")`. -/
def pyEndsWithTpool (l : PStr) : Bool :=
  decide (l.reverse.take 6 = ("-tpool").data.reverse)

/-- The `ValueError` raised by a failed tuple unpacking inside
`get_default_tpool` (none of these unpackings is guarded). -/
inductive DmParseErr where
  | valueError
deriving DecidableEq, Repr

/-- The final `if volume_group and thin_pool` truthiness check of
`get_default_tpool` (utils.py lines 243-246). -/
def mkTpoolResult (vg tp : PStr) (create : Bool) :
    Option (PStr × PStr × Bool) :=
  if vg ≠ [] ∧ tp ≠ [] then some (vg, tp, create) else none

/-- Lines 232-246 of utils.py: when the derived thin pool is `None` or
`root-pool`, propose `vm-pool` in the same volume group, creating it exactly
when `lvs --noheadings vg/vm-pool` fails (the pool does not exist yet);
otherwise keep the derived pool with the create flag clear. -/
def finishTpool (vg : PStr) (tp? : Option PStr) (lvsOk : PStr → Bool) :
    Option (PStr × PStr × Bool) :=
  match tp? with
  | some tp =>
    if tp = ("root-pool").data then
      mkTpoolResult vg (("vm-pool").data) (!lvsOk (vg ++ ("/vm-pool").data))
    else mkTpoolResult vg tp false
  | none =>
    mkTpoolResult vg (("vm-pool").data) (!lvsOk (vg ++ ("/vm-pool").data))

/-- Lines 219-246 of utils.py, from the device name on: if the name ends in
`-tpool`, decode LVM's hyphen escaping (`replace('--', '=')`, `rsplit('-',
2)` into volume group, thin pool and the `tpool` suffix, then
`replace('=', '-')` back); otherwise decode the volume group from a
`vg-lv` linear name and leave the thin pool unset. -/
def tpoolFromDevname (lower_devname : PStr) (lvsOk : PStr → Bool) :
    Except DmParseErr (Option (PStr × PStr × Bool)) :=
  if pyEndsWithTpool lower_devname then
    match pyRsplitChar '-' 2 (replaceDD lower_devname) with
    | [vgE, tpE, _tpool] =>
      Except.ok (finishTpool (vgE.map eqToDash) (some (tpE.map eqToDash)) lvsOk)
    | _ => Except.error DmParseErr.valueError
  else
    match pyRsplitChar '-' 1 (replaceDD lower_devname) with
    | [vgE, _lv] => Except.ok (finishTpool (vgE.map eqToDash) none lvsOk)
    | _ => Except.error DmParseErr.valueError

/-- `get_default_tpool` (utils.py lines 197-246).  `table` is the decoded
output of `dmsetup table` for the root filesystem's device (`none` when the
command exits nonzero, which the code catches and turns into `None`);
`readDmName` maps a device number token to the content of its
`/sys/dev/block/.../dm/name` file; `lvsOk` tells whether
`lvs --noheadings <arg>` exits 0. -/
def getDefaultTpool (table : Option PStr) (readDmName : PStr → PStr)
    (lvsOk : PStr → Bool) : Except DmParseErr (Option (PStr × PStr × Bool)) :=
  match table with
  | none => Except.ok none
  | some t =>
    match splitCharMax ' ' 3 t with
    | [_start, _sectors, target_type, target_args] =>
      if target_type ≠ ("thin").data ∧ target_type ≠ ("linear").data then
        Except.ok none
      else
        match splitOnChar ' ' target_args with
        | [lower_devnum, _args] =>
          tpoolFromDevname (pyRstripNl (readDmName lower_devnum)) lvsOk
        | _ => Except.error DmParseErr.valueError
    | _ => Except.error DmParseErr.valueError

theorem replaceDD_cons_ne {c : Char} (hc : c ≠ '-') (l : PStr) :
    replaceDD (c :: l) = c :: replaceDD l := by
  cases l with
  | nil => rfl
  | cons d m =>
    show replaceDD (c :: d :: m) = c :: replaceDD (d :: m)
    simp only [replaceDD]
    rw [if_neg (by simp [hc])]

theorem replaceDD_dash_cons {d : Char} (hd : d ≠ '-') (m : PStr) :
    replaceDD ('-' :: d :: m) = '-' :: replaceDD (d :: m) := by
  simp only [replaceDD]
  rw [if_neg (by simp [hd])]

theorem replaceDD_encode (x : PStr) (l : PStr) :
    replaceDD (lvmEncode x ++ l) = x.map dashToEq ++ replaceDD l := by
  induction x with
  | nil => rfl
  | cons c xs ih =>
    by_cases hc : c = '-'
    · subst hc
      show replaceDD (lvmEncode ('-' :: xs) ++ l) = _
      rw [show lvmEncode ('-' :: xs) = '-' :: '-' :: lvmEncode xs from by
        simp [lvmEncode]]
      rw [List.cons_append, List.cons_append]
      rw [show replaceDD ('-' :: '-' :: (lvmEncode xs ++ l))
          = '=' :: replaceDD (lvmEncode xs ++ l) from by
        simp only [replaceDD]
        rw [if_pos (by simp)]]
      rw [ih]
      simp [dashToEq]
    · show replaceDD (lvmEncode (c :: xs) ++ l) = _
      rw [show lvmEncode (c :: xs) = c :: lvmEncode xs from by
        simp only [lvmEncode]
        rw [if_neg hc]]
      rw [List.cons_append, replaceDD_cons_ne hc, ih]
      simp [dashToEq, hc]

theorem not_dash_mem_map_dashToEq (x : PStr) : '-' ∉ x.map dashToEq := by
  intro h
  obtain ⟨a, _, ha⟩ := List.mem_map.1 h
  by_cases hc : a = '-' <;> simp [dashToEq, hc] at ha

theorem map_eqToDash_map_dashToEq {x : PStr} (h : '=' ∉ x) :
    (x.map dashToEq).map eqToDash = x := by
  induction x with
  | nil => rfl
  | cons c xs ih =>
    have hc : c ≠ '=' := fun he => h (he ▸ List.mem_cons_self c xs)
    have hxs : '=' ∉ xs := fun hm => h (List.mem_cons_of_mem c hm)
    simp only [List.map_cons, ih hxs]
    congr 1
    by_cases hd : c = '-'
    · subst hd; rfl
    · simp [dashToEq, eqToDash, hd, hc]

theorem splitCharMax_no_sep {sep : Char} {l : PStr} (h : sep ∉ l) (n : Nat) :
    splitCharMax sep n l = [l] := by
  induction l generalizing n with
  | nil => cases n <;> rfl
  | cons c rest ih =>
    have hc : c ≠ sep := fun he => h (he ▸ List.mem_cons_self c rest)
    have hrest : sep ∉ rest := fun hm => h (List.mem_cons_of_mem c hm)
    cases n with
    | zero => rfl
    | succ n =>
      show splitCharMax sep (n+1) (c :: rest) = [c :: rest]
      simp only [splitCharMax]
      rw [if_neg hc, ih hrest (n+1)]

theorem splitCharMax_append_sep {sep : Char} {X rest : PStr} (h : sep ∉ X)
    (n : Nat) :
    splitCharMax sep (n+1) (X ++ sep :: rest) =
      X :: splitCharMax sep n rest := by
  induction X with
  | nil =>
    show splitCharMax sep (n+1) (sep :: rest) = [] :: splitCharMax sep n rest
    simp [splitCharMax]
  | cons c X' ih =>
    have hc : c ≠ sep := fun he => h (he ▸ List.mem_cons_self c X')
    have hX' : sep ∉ X' := fun hm => h (List.mem_cons_of_mem c hm)
    show splitCharMax sep (n+1) (c :: (X' ++ sep :: rest)) = _
    simp only [splitCharMax]
    rw [if_neg hc, ih hX']

theorem splitCharMax_zero (sep : Char) (l : PStr) :
    splitCharMax sep 0 l = [l] := by
  cases l <;> rfl

theorem pyRsplit2_exact {A B C : PStr} (hB : '-' ∉ B) (hC : '-' ∉ C) :
    pyRsplitChar '-' 2 (A ++ '-' :: (B ++ '-' :: C)) = [A, B, C] := by
  unfold pyRsplitChar
  have hrev : (A ++ '-' :: (B ++ '-' :: C)).reverse
      = C.reverse ++ '-' :: (B.reverse ++ '-' :: A.reverse) := by
    simp [List.reverse_append]
  rw [hrev]
  rw [splitCharMax_append_sep (by simpa using hC) 1]
  rw [splitCharMax_append_sep (by simpa using hB) 0]
  rw [splitCharMax_zero]
  simp

theorem pyRsplit1_exact {A B : PStr} (hB : '-' ∉ B) :
    pyRsplitChar '-' 1 (A ++ '-' :: B) = [A, B] := by
  unfold pyRsplitChar
  have hrev : (A ++ '-' :: B).reverse = B.reverse ++ '-' :: A.reverse := by
    simp [List.reverse_append]
  rw [hrev]
  rw [splitCharMax_append_sep (by simpa using hB) 0]
  rw [splitCharMax_zero]
  simp

theorem pyEndsWithTpool_append (X : PStr) :
    pyEndsWithTpool (X ++ ("-tpool").data) = true := by
  unfold pyEndsWithTpool
  rw [List.reverse_append]
  rw [show (("-tpool").data.reverse ++ X.reverse).take 6
      = ("-tpool").data.reverse from by
    rw [show (6 : Nat) = ("-tpool").data.reverse.length from rfl]
    exact List.take_left ..]
  simp

theorem lvmEncode_cons_ne {p : Char} (hp : p ≠ '-') (ps : PStr) :
    lvmEncode (p :: ps) = p :: lvmEncode ps := by
  simp [lvmEncode, hp]

/-- Decoding correctness of the `-tpool` branch: on the device name LVM
builds for the thin-pool device of pool `pool` in volume group `vg`
(hyphens doubled, `-tpool` appended), the branch recovers `(vg, pool)` and
hands them to the tail logic. -/
theorem tpoolFromDevname_tpool (vg pool : PStr) (lvsOk : PStr → Bool)
    (hpool : pool ≠ []) (hph : pool.head? ≠ some '-')
    (hveq : '=' ∉ vg) (hpeq : '=' ∉ pool) :
    tpoolFromDevname
      (lvmEncode vg ++ '-' :: (lvmEncode pool ++ ("-tpool").data)) lvsOk
      = Except.ok (finishTpool vg (some pool) lvsOk) := by
  obtain ⟨p, ps, hpe⟩ : ∃ p ps, pool = p :: ps := by
    cases pool with
    | nil => exact absurd rfl hpool
    | cons p ps => exact ⟨p, ps, rfl⟩
  have hpne : p ≠ '-' := by
    intro he
    rw [hpe] at hph
    simp [he] at hph
  have hEpool : lvmEncode pool = p :: lvmEncode ps := by
    rw [hpe]
    exact lvmEncode_cons_ne hpne ps
  have hend : pyEndsWithTpool
      (lvmEncode vg ++ '-' :: (lvmEncode pool ++ ("-tpool").data)) = true := by
    rw [show lvmEncode vg ++ '-' :: (lvmEncode pool ++ ("-tpool").data)
        = (lvmEncode vg ++ '-' :: lvmEncode pool) ++ ("-tpool").data from by
      simp]
    exact pyEndsWithTpool_append _
  have hrepl : replaceDD
      (lvmEncode vg ++ '-' :: (lvmEncode pool ++ ("-tpool").data))
      = vg.map dashToEq
        ++ '-' :: (pool.map dashToEq ++ '-' :: ("tpool").data) := by
    rw [replaceDD_encode]
    congr 1
    rw [hEpool, List.cons_append, replaceDD_dash_cons hpne]
    rw [show p :: (lvmEncode ps ++ ("-tpool").data)
        = lvmEncode pool ++ ("-tpool").data from by rw [hEpool]; simp]
    rw [replaceDD_encode]
    rw [show replaceDD (("-tpool").data) = '-' :: ("tpool").data from by
      decide]
  unfold tpoolFromDevname
  rw [if_pos hend, hrepl,
    pyRsplit2_exact (not_dash_mem_map_dashToEq pool) (by decide)]
  simp [map_eqToDash_map_dashToEq hveq, map_eqToDash_map_dashToEq hpeq]

/-- The `root-pool`/`None` tail: propose `vm-pool` in the same volume group,
creating it exactly when the `lvs` probe fails. -/
theorem finishTpool_root_pool (vg : PStr) (lvs : PStr → Bool) (hvg : vg ≠ []) :
    finishTpool vg (some (("root-pool").data)) lvs
      = some (vg, ("vm-pool").data, !lvs (vg ++ ("/vm-pool").data)) := by
  simp [finishTpool, mkTpoolResult, hvg]

/-- Decoding correctness of the linear branch: a `vg-lv` device name whose
end is not `-tpool` yields volume group `vg`, no derived thin pool, and so
the `vm-pool` proposal. -/
theorem tpoolFromDevname_linear (vg lv : PStr) (lvsOk : PStr → Bool)
    (hvg : vg ≠ []) (hlv : lv ≠ []) (hlh : lv.head? ≠ some '-')
    (hveq : '=' ∉ vg)
    (hnotend : pyEndsWithTpool (lvmEncode vg ++ '-' :: lvmEncode lv)
      = false) :
    tpoolFromDevname (lvmEncode vg ++ '-' :: lvmEncode lv) lvsOk
      = Except.ok (some (vg, ("vm-pool").data,
          !lvsOk (vg ++ ("/vm-pool").data))) := by
  obtain ⟨p, ps, hpe⟩ : ∃ p ps, lv = p :: ps := by
    cases lv with
    | nil => exact absurd rfl hlv
    | cons p ps => exact ⟨p, ps, rfl⟩
  have hpne : p ≠ '-' := by
    intro he
    rw [hpe] at hlh
    simp [he] at hlh
  have hElv : lvmEncode lv = p :: lvmEncode ps := by
    rw [hpe]
    exact lvmEncode_cons_ne hpne ps
  have hrepl : replaceDD (lvmEncode vg ++ '-' :: lvmEncode lv)
      = vg.map dashToEq ++ '-' :: lv.map dashToEq := by
    rw [replaceDD_encode]
    congr 1
    rw [hElv, replaceDD_dash_cons hpne]
    rw [show p :: lvmEncode ps = lvmEncode lv ++ [] from by rw [hElv]; simp]
    rw [replaceDD_encode]
    simp [replaceDD]
  unfold tpoolFromDevname
  rw [hnotend]
  rw [if_neg (by simp)]
  rw [hrepl, pyRsplit1_exact (not_dash_mem_map_dashToEq lv)]
  simp [map_eqToDash_map_dashToEq hveq, finishTpool, mkTpoolResult, hvg]

/-- Claim C4: `get_default_tpool` parses the root filesystem's device-mapper
table.  Conjuncts: (1) a failing `dmsetup` yields `None`; (2) a table whose
target type is neither `thin` nor `linear` yields `None`; (3) for a
`thin`/`linear` table the result is computed from the underlying device's
name; (4) a device name ending in `-tpool` is decoded through LVM's hyphen
escaping (each `--` stands for one literal `-`) back to the original volume
group and thin pool, which feed the tail logic; (5) when the derived pool is
`root-pool` the function proposes `vm-pool` in the same volume group with
the create flag set exactly when no `vm-pool` logical volume exists there;
(6) likewise when no pool is derived (linear target, name not ending in
`-tpool`). -/
theorem c4_get_default_tpool :
    (∀ readDm lvs, getDefaultTpool none readDm lvs = Except.ok none)
    ∧ (∀ t readDm lvs s0 s1 ty ta, splitCharMax ' ' 3 t = [s0, s1, ty, ta] →
        ty ≠ ("thin").data → ty ≠ ("linear").data →
        getDefaultTpool (some t) readDm lvs = Except.ok none)
    ∧ (∀ t readDm lvs s0 s1 ty ta devnum args,
        splitCharMax ' ' 3 t = [s0, s1, ty, ta] →
        (ty = ("thin").data ∨ ty = ("linear").data) →
        splitOnChar ' ' ta = [devnum, args] →
        getDefaultTpool (some t) readDm lvs
          = tpoolFromDevname (pyRstripNl (readDm devnum)) lvs)
    ∧ (∀ vg pool lvs, pool ≠ [] → pool.head? ≠ some '-' →
        '=' ∉ vg → '=' ∉ pool →
        tpoolFromDevname
          (lvmEncode vg ++ '-' :: (lvmEncode pool ++ ("-tpool").data)) lvs
          = Except.ok (finishTpool vg (some pool) lvs))
    ∧ (∀ vg lvs, vg ≠ [] → '=' ∉ vg →
        tpoolFromDevname
          (lvmEncode vg
            ++ '-' :: (lvmEncode (("root-pool").data) ++ ("-tpool").data)) lvs
          = Except.ok (some (vg, ("vm-pool").data,
              !lvs (vg ++ ("/vm-pool").data))))
    ∧ (∀ vg lv lvs, vg ≠ [] → lv ≠ [] → lv.head? ≠ some '-' → '=' ∉ vg →
        pyEndsWithTpool (lvmEncode vg ++ '-' :: lvmEncode lv) = false →
        tpoolFromDevname (lvmEncode vg ++ '-' :: lvmEncode lv) lvs
          = Except.ok (some (vg, ("vm-pool").data,
              !lvs (vg ++ ("/vm-pool").data)))) := by
  refine ⟨fun readDm lvs => rfl, ?_, ?_, ?_, ?_, ?_⟩
  · intro t readDm lvs s0 s1 ty ta hsplit h1 h2
    simp [getDefaultTpool, hsplit, h1, h2]
  · intro t readDm lvs s0 s1 ty ta devnum args hsplit hty hargs
    rcases hty with h | h <;> subst h <;>
      simp [getDefaultTpool, hsplit, hargs]
  · intro vg pool lvs hpool hph hveq hpeq
    exact tpoolFromDevname_tpool vg pool lvs hpool hph hveq hpeq
  · intro vg lvs hvg hveq
    rw [tpoolFromDevname_tpool vg (("root-pool").data) lvs (by decide)
      (by decide) hveq (by decide)]
    rw [finishTpool_root_pool vg lvs hvg]
  · intro vg lv lvs hvg hlv hlh hveq hnotend
    exact tpoolFromDevname_linear vg lv lvs hvg hlv hlh hveq hnotend

/-- Witness for C4 at concrete inputs: a `striped` table yields `None`; the
device name `qubes_dom0-vm--pool-tpool` (vg `qubes_dom0`, pool `vm-pool`,
whose hyphen LVM doubled) decodes back and, the pool being neither absent
nor `root-pool`, is returned with the create flag clear; the name
`qubes_dom0-root--pool-tpool` derives `root-pool` and so proposes `vm-pool`
with the create flag set when the `lvs` probe fails; and the linear name
`qubes_dom0-root` likewise proposes `vm-pool`. -/
theorem c4_get_default_tpool_witness :
    getDefaultTpool (some (("0 1000 striped 2 foo bar").data))
      (fun _ => []) (fun _ => true) = Except.ok none
    ∧ tpoolFromDevname (("qubes_dom0-vm--pool-tpool").data) (fun _ => true)
        = Except.ok (some (("qubes_dom0").data, ("vm-pool").data, false))
    ∧ tpoolFromDevname (("qubes_dom0-root--pool-tpool").data) (fun _ => false)
        = Except.ok (some (("qubes_dom0").data, ("vm-pool").data, true))
    ∧ tpoolFromDevname (("qubes_dom0-root").data) (fun _ => true)
        = Except.ok (some (("qubes_dom0").data, ("vm-pool").data, false)) := by
  refine ⟨?_, ?_, ?_, ?_⟩
  · exact c4_get_default_tpool.2.1 (("0 1000 striped 2 foo bar").data)
      (fun _ => []) (fun _ => true) (("0").data) (("1000").data)
      (("striped").data) (("2 foo bar").data) (by decide) (by decide)
      (by decide)
  · exact c4_get_default_tpool.2.2.2.1 (("qubes_dom0").data)
      (("vm-pool").data) (fun _ => true) (by decide) (by decide) (by decide)
      (by decide)
  · exact c4_get_default_tpool.2.2.2.2.1 (("qubes_dom0").data)
      (fun _ => false) (by decide) (by decide)
  · exact c4_get_default_tpool.2.2.2.2.2 (("qubes_dom0").data)
      (("root").data) (fun _ => true) (by decide) (by decide) (by decide)
      (by decide) (by decide)
